import Mathlib

/-!
Verification of the News-Necromancer narration pipeline.

Shallow embedding of the narration core of the repository:
* `backend/narration/queue_manager.py` (priority queue, dispatch, status lifecycle),
* `backend/narration/voice_service.py` (retry/backoff, rate limiting, outage breaker),
* `backend/narration/cleanup.py` (background sweeper),
* `backend/api/routes/narration.py` (priority-string mapping at the POST endpoint).

Python `datetime` values are embedded as natural-number timestamps, byte strings
as `List Nat`, and the asyncio event loop as a small-step transition relation in
which each turn of the cooperative scheduler (between two `await` points) is one
atomic step.  The audio cache (`audio_cache.py`) is imported by the narration
modules but its source file is absent; the few cache operations the claims touch
are modelled from the specification and marked as such.
-/

namespace NewsNecromancer

/-! ## Priorities (queue_manager.py, class Priority) -/

/-- Source: `Priority(IntEnum)`: HIGH = 1, NORMAL = 2, LOW = 3. -/
inductive Priority where
  | high
  | normal
  | low
deriving DecidableEq, Repr

/-- The numeric value of the `IntEnum` member (HIGH = 1, NORMAL = 2, LOW = 3);
lower values sort first in the priority queue. -/
def Priority.toNat : Priority → Nat
  | .high => 1
  | .normal => 2
  | .low => 3

theorem Priority.toNat_inj : ∀ {a b : Priority}, a.toNat = b.toNat → a = b := by
  intro a b
  cases a <;> cases b <;> simp [Priority.toNat]

/-! ## Priority mapping at the POST generate endpoint
(src/backend/api/routes/narration.py, lines 148-154) -/

/-- Python `str.lower()`: per-character lowercasing. -/
def pyLower (s : String) : String := String.mk (s.data.map Char.toLower)

/-- Embedding of
`priority = priority_map.get(request.priority.lower(), Priority.NORMAL)`
where `priority_map = {"high": HIGH, "normal": NORMAL, "low": LOW}`. -/
def priorityFromString (p : String) : Priority :=
  let l := pyLower p
  if l = "high" then .high
  else if l = "normal" then .normal
  else if l = "low" then .low
  else .normal

/-! ## Queued requests (queue_manager.py, class QueuedRequest) -/

/-- Source: `@dataclass(order=True) class QueuedRequest` with `compare=True` on exactly
`priority` and `created_at`; `request_id` and the request payload do not
participate in the ordering (the payload is omitted here, no claim reads it). -/
structure QueuedRequest where
  priority : Priority
  created_at : Nat
  request_id : Nat
deriving DecidableEq, Repr

/-- The dataclass ordering: lexicographic on `(priority, created_at)`,
the comparison `asyncio.PriorityQueue` retrieves lowest-first. -/
def qLe (a b : QueuedRequest) : Prop :=
  a.priority.toNat < b.priority.toNat ∨
    (a.priority.toNat = b.priority.toNat ∧ a.created_at ≤ b.created_at)

instance : DecidableRel qLe := fun a b => by unfold qLe; infer_instance

instance : IsTotal QueuedRequest qLe :=
  ⟨by intro a b; unfold qLe; omega⟩

instance : IsTrans QueuedRequest qLe :=
  ⟨by intro a b c; unfold qLe; omega⟩

/-! ## Request status records (queue_manager.py, request_status entries) -/

/-- The `status` strings appearing in `request_status[...]["status"]`. -/
inductive Status where
  | queued
  | generating
  | completed
  | failed
  | cancelled
deriving DecidableEq, Repr

/-- Source: `status in ["completed", "failed", "cancelled"]` — the terminal states. -/
def Status.isTerminal : Status → Bool
  | .completed => true
  | .failed => true
  | .cancelled => true
  | .queued => false
  | .generating => false

/-- One entry of the `request_status` dict as built by `enqueue` and mutated by
`process_queue`, `_process_request` and `cancel_request`.  The generation
callback object is embedded as `Option Unit` (present or absent); `result` is
an opaque reference. -/
structure StatusInfo where
  status : Status
  progress : Nat
  created_at : Nat
  priority : Priority
  callback : Option Unit
  error : Option String
  result : Option Nat
  started_at : Option Nat
  completed_at : Option Nat
deriving DecidableEq, Repr

/-! ## Queue manager state (queue_manager.py, class GenerationQueueManager)

`request_status` keys are uuid4 strings; the embedding assigns the ids
`0, 1, 2, …` in submission order (uuids are fresh, so ids are exactly an
enumeration of the requests), and stores the records in a list indexed by id.
`clock` records the last `datetime.now()` observed; steps may only read clocks
that do not run backwards. -/

structure QMState where
  max_concurrent : Nat
  clock : Nat
  /-- Contents of `self.queue : asyncio.PriorityQueue`, kept in retrieval
  order: `put` inserts in `(priority, created_at)` order, `get` takes the
  head (lowest first). -/
  queue : List QueuedRequest
  /-- Keys of `self.active_requests` (ids with a live processing task). -/
  active_requests : List Nat
  /-- Source: `self.request_status`: the record of request `i` sits at index `i`. -/
  statuses : List StatusInfo
  /-- Source: `self.queued_items` (id ↦ queued request, in insertion order). -/
  queued_items : List (Nat × QueuedRequest)
  /-- History variable: the ids whose generation callback has been invoked
  (the `await callback(queued_request.request)` line of `_process_request`).
  Not a field of the Python object; recorded to state callback claims. -/
  invoked : List Nat
deriving Repr

/-- Fresh manager from `GenerationQueueManager.__init__` at time `t0`. -/
def initQM (maxConcurrent t0 : Nat) : QMState :=
  { max_concurrent := maxConcurrent
    clock := t0
    queue := []
    active_requests := []
    statuses := []
    queued_items := []
    invoked := [] }

/-- Source: `l.set i (f l[i])` when `i` is a valid index, else `l` unchanged:
mutation of one entry of the `request_status` dict. -/
def updAt (l : List StatusInfo) (i : Nat) (f : StatusInfo → StatusInfo) :
    List StatusInfo :=
  match l[i]? with
  | some st => l.set i (f st)
  | none => l

/-- Source: `enqueue(request, priority, generation_callback)` at time `t`
(`datetime.now()`): records a `queued` status, registers the item in
`queued_items`, and puts it on the priority queue. -/
def enqueueReq (s : QMState) (pr : Priority) (t : Nat) (cb : Option Unit) :
    QMState :=
  let i := s.statuses.length
  let q : QueuedRequest := ⟨pr, t, i⟩
  { s with
    clock := t
    queue := List.orderedInsert qLe q s.queue
    queued_items := s.queued_items ++ [(i, q)]
    statuses := s.statuses ++
      [{ status := .queued, progress := 0, created_at := t, priority := pr
         callback := cb, error := none, result := none
         started_at := none, completed_at := none }] }

/-- The dispatching turn of `process_queue` (lines 115-144): the head of the
priority queue is taken, removed from `queued_items`, marked `generating` with
a start timestamp, and its processing task is registered in
`active_requests`. -/
def dispatchStart (s : QMState) (q : QueuedRequest) (rest : List QueuedRequest)
    (t : Nat) : QMState :=
  { s with
    clock := t
    queue := rest
    queued_items := s.queued_items.filter (fun p => p.1 ≠ q.request_id)
    statuses := updAt s.statuses q.request_id
      (fun st => { st with status := .generating, started_at := some t })
    active_requests := q.request_id :: s.active_requests }

/-- The `continue` branches of `process_queue` (lines 125-129): a queue entry
whose id is unknown or whose status is already `cancelled` is popped and
discarded without being dispatched. -/
def dispatchDiscard (s : QMState) (rest : List QueuedRequest) : QMState :=
  { s with queue := rest }

/-- Source: `_process_request` completing normally (lines 189-204): status
`completed`, progress 100, completion timestamp, and the callback result (or
`none` on the no-callback path, where `result` is left at its initial
`None`). -/
def completeReq (s : QMState) (i t : Nat) (res : Option Nat) : QMState :=
  { s with
    clock := t
    statuses := updAt s.statuses i
      (fun st => { st with status := .completed, progress := 100,
                           completed_at := some t, result := res }) }

/-- Source: `_process_request` catching a non-cancellation exception (lines 213-218):
status `failed` with the error message and a completion timestamp. -/
def failReq (s : QMState) (i t : Nat) (msg : String) : QMState :=
  { s with
    clock := t
    statuses := updAt s.statuses i
      (fun st => { st with status := .failed, error := some msg,
                           completed_at := some t }) }

/-- The `await callback(queued_request.request)` line of `_process_request`
starting to run: records the invocation in the history variable. -/
def invokeCb (s : QMState) (i : Nat) : QMState :=
  { s with invoked := i :: s.invoked }

/-- Source: `cancel_request(request_id)` at time `t`: unknown ids and terminal
statuses are left untouched (warning / early return); otherwise the status
becomes `cancelled` with a completion timestamp, the entry leaves
`queued_items`, and any active task is cancelled and removed. -/
def cancelReq (s : QMState) (i t : Nat) : QMState :=
  match s.statuses[i]? with
  | none => s
  | some st =>
    if st.status.isTerminal then s
    else
      { s with
        clock := t
        statuses := updAt s.statuses i
          (fun st => { st with status := .cancelled, completed_at := some t })
        queued_items := s.queued_items.filter (fun p => p.1 ≠ i)
        active_requests := s.active_requests.filter (fun j => j ≠ i) }

/-- The task-cleanup turn of `process_queue` (lines 158-163): a finished task
is removed from `active_requests`. -/
def reapTask (s : QMState) (i : Nat) : QMState :=
  { s with active_requests := s.active_requests.filter (fun j => j ≠ i) }

/-! ## The event-loop step relation

Each constructor is one atomic turn of the asyncio event loop inside
`GenerationQueueManager` (no `await` occurs inside any of them). -/

inductive QStep : QMState → QMState → Prop where
  /-- A caller runs `enqueue` at time `t`. -/
  | enqueue (s : QMState) (pr : Priority) (t : Nat) (cb : Option Unit) :
      s.clock ≤ t → QStep s (enqueueReq s pr t cb)
  /-- Source: `process_queue` pulls the queue head under the concurrency guard
  `len(self.active_requests) < self.max_concurrent` and dispatches it
  (its status is known and not `cancelled`). -/
  | dispatch (s : QMState) (q : QueuedRequest) (rest : List QueuedRequest)
      (t : Nat) (st : StatusInfo) :
      s.queue = q :: rest →
      s.active_requests.length < s.max_concurrent →
      s.statuses[q.request_id]? = some st →
      st.status ≠ .cancelled →
      s.clock ≤ t →
      QStep s (dispatchStart s q rest t)
  /-- Source: `process_queue` pulls a stale queue entry (unknown id or already
  cancelled) and discards it. -/
  | discard (s : QMState) (q : QueuedRequest) (rest : List QueuedRequest) :
      s.queue = q :: rest →
      s.active_requests.length < s.max_concurrent →
      (s.statuses[q.request_id]? = none ∨
        ∃ st, s.statuses[q.request_id]? = some st ∧ st.status = .cancelled) →
      QStep s (dispatchDiscard s rest)
  /-- An active task reaches the `await callback(...)` line. -/
  | invoke (s : QMState) (i : Nat) (st : StatusInfo) :
      i ∈ s.active_requests →
      s.statuses[i]? = some st →
      st.status = .generating →
      st.callback = some () →
      QStep s (invokeCb s i)
  /-- An active task finishes normally at time `t` (with the callback result,
  or `none` on the no-callback path). -/
  | complete (s : QMState) (i t : Nat) (st : StatusInfo) (res : Option Nat) :
      i ∈ s.active_requests →
      s.statuses[i]? = some st →
      st.status = .generating →
      s.clock ≤ t →
      QStep s (completeReq s i t res)
  /-- An active task raises at time `t`. -/
  | fail (s : QMState) (i t : Nat) (st : StatusInfo) (msg : String) :
      i ∈ s.active_requests →
      s.statuses[i]? = some st →
      st.status = .generating →
      s.clock ≤ t →
      QStep s (failReq s i t msg)
  /-- A caller runs `cancel_request` at time `t`. -/
  | cancel (s : QMState) (i t : Nat) :
      s.clock ≤ t → QStep s (cancelReq s i t)
  /-- Source: `process_queue` reaps a task whose request reached a terminal status. -/
  | reap (s : QMState) (i : Nat) (st : StatusInfo) :
      i ∈ s.active_requests →
      s.statuses[i]? = some st →
      st.status.isTerminal = true →
      QStep s (reapTask s i)

/-- States reachable from a freshly constructed manager. -/
inductive QReach : QMState → Prop where
  | init (maxConcurrent t0 : Nat) : QReach (initQM maxConcurrent t0)
  | step {s s' : QMState} : QReach s → QStep s s' → QReach s'

/-- Reflexive-transitive closure of the event-loop step relation. -/
inductive QSteps : QMState → QMState → Prop where
  | refl (s : QMState) : QSteps s s
  | tail {s s' s'' : QMState} : QSteps s s' → QStep s' s'' → QSteps s s''

/-! ## Access lemmas for the status table -/

theorem updAt_length (l : List StatusInfo) (i : Nat) (f : StatusInfo → StatusInfo) :
    (updAt l i f).length = l.length := by
  unfold updAt
  cases h : l[i]? <;> simp

theorem updAt_get_ne (l : List StatusInfo) (i j : Nat) (f : StatusInfo → StatusInfo)
    (h : j ≠ i) : (updAt l i f)[j]? = l[j]? := by
  unfold updAt
  cases h2 : l[i]? with
  | none => rfl
  | some st => exact List.getElem?_set_ne (Ne.symm h)

theorem updAt_get_self {l : List StatusInfo} {i : Nat} {st : StatusInfo}
    (f : StatusInfo → StatusInfo) (h : l[i]? = some st) :
    (updAt l i f)[i]? = some (f st) := by
  unfold updAt
  rw [h]
  exact List.getElem?_set_self (List.getElem?_eq_some_iff.mp h).1

theorem mem_filter_ne {l : List Nat} {j i : Nat} :
    j ∈ l.filter (fun k => k ≠ i) ↔ j ∈ l ∧ j ≠ i := by
  simp [List.mem_filter]

/-! ## The reachability invariant of the queue manager -/

/-- Structural invariant of `GenerationQueueManager`, preserved by every
event-loop turn.  It ties the priority queue, `active_requests`,
`request_status` and the callback-invocation history together. -/
structure QMInv (s : QMState) : Prop where
  /-- The priority queue is in retrieval order. -/
  sorted : List.Sorted qLe s.queue
  /-- Every queue entry has a status record. -/
  qIdsLt : ∀ q ∈ s.queue, q.request_id < s.statuses.length
  /-- A queue entry is still `queued`, or `cancelled` while awaiting discard. -/
  qStatus : ∀ q ∈ s.queue, ∀ st, s.statuses[q.request_id]? = some st →
      st.status = .queued ∨ st.status = .cancelled
  /-- Ids occur at most once in the priority queue. -/
  qNodup : (s.queue.map QueuedRequest.request_id).Nodup
  /-- No queue entry is simultaneously active. -/
  qActive : ∀ q ∈ s.queue, q.request_id ∉ s.active_requests
  activeNodup : s.active_requests.Nodup
  activeLt : ∀ i ∈ s.active_requests, i < s.statuses.length
  /-- The dispatch guard keeps the active set below the concurrency cap. -/
  activeBound : s.active_requests.length ≤ s.max_concurrent
  /-- A `generating` request always has an active task. -/
  genActive : ∀ i st, s.statuses[i]? = some st → st.status = .generating →
      i ∈ s.active_requests
  /-- A still-`queued` request's callback has never been invoked. -/
  queuedNotInvoked : ∀ i st, s.statuses[i]? = some st → st.status = .queued →
      i ∉ s.invoked
  invokedLt : ∀ i ∈ s.invoked, i < s.statuses.length

theorem qmInv_init (maxConcurrent t0 : Nat) : QMInv (initQM maxConcurrent t0) := by
  constructor <;> simp [initQM, List.Sorted]

theorem qmInv_enqueueReq {s : QMState} (h : QMInv s) (pr : Priority) (t : Nat)
    (cb : Option Unit) : QMInv (enqueueReq s pr t cb) := by
  set n := s.statuses.length with hn
  have hmem : ∀ r : QueuedRequest,
      r ∈ (enqueueReq s pr t cb).queue → r = ⟨pr, t, n⟩ ∨ r ∈ s.queue := by
    intro r hr
    simpa [enqueueReq, List.mem_orderedInsert] using hr
  have hlen : (enqueueReq s pr t cb).statuses.length = n + 1 := by
    simp [enqueueReq]
  have hget_lt : ∀ j, j < n →
      (enqueueReq s pr t cb).statuses[j]? = s.statuses[j]? := by
    intro j hj
    simp [enqueueReq, List.getElem?_append_left hj]
  have hget_n : (enqueueReq s pr t cb).statuses[n]? =
      some { status := .queued, progress := 0, created_at := t, priority := pr,
             callback := cb, error := none, result := none,
             started_at := none, completed_at := none } := by
    have := List.getElem?_concat_length s.statuses
      { status := .queued, progress := 0, created_at := t, priority := pr,
        callback := cb, error := none, result := none,
        started_at := none, completed_at := none }
    exact this
  constructor
  · exact h.sorted.orderedInsert _ _
  · intro r hr
    rcases hmem r hr with rfl | hr'
    · simp [hlen]
    · have := h.qIdsLt r hr'
      omega
  · intro r hr st hst
    rcases hmem r hr with rfl | hr'
    · rw [hget_n] at hst
      cases hst
      left; rfl
    · have hlt := h.qIdsLt r hr'
      rw [hget_lt _ hlt] at hst
      exact h.qStatus r hr' st hst
  · have hperm := (List.perm_orderedInsert qLe
        (⟨pr, t, n⟩ : QueuedRequest) s.queue).map QueuedRequest.request_id
    have hq : (enqueueReq s pr t cb).queue =
        List.orderedInsert qLe ⟨pr, t, n⟩ s.queue := rfl
    rw [hq, List.Perm.nodup_iff hperm]
    simp only [List.map_cons, List.nodup_cons]
    refine ⟨?_, h.qNodup⟩
    intro hmem'
    rcases List.mem_map.mp hmem' with ⟨r, hr, hid⟩
    have := h.qIdsLt r hr
    omega
  · intro r hr
    rcases hmem r hr with rfl | hr'
    · intro habs
      have habs' : n ∈ s.active_requests := habs
      have := h.activeLt _ habs'
      omega
    · simpa [enqueueReq] using h.qActive r hr'
  · simpa [enqueueReq] using h.activeNodup
  · intro i hi
    have := h.activeLt i (by simpa [enqueueReq] using hi)
    omega
  · simpa [enqueueReq] using h.activeBound
  · intro i st hst hgen
    by_cases hij : i < n
    · rw [hget_lt _ hij] at hst
      simpa [enqueueReq] using h.genActive i st hst hgen
    · by_cases hin : i = n
      · subst hin
        rw [hget_n] at hst
        cases hst
        simp at hgen
      · exfalso
        have : (enqueueReq s pr t cb).statuses[i]? = none :=
          List.getElem?_eq_none (by omega)
        rw [this] at hst
        cases hst
  · intro i st hst hq
    by_cases hij : i < n
    · rw [hget_lt _ hij] at hst
      simpa [enqueueReq] using h.queuedNotInvoked i st hst hq
    · by_cases hin : i = n
      · subst hin
        intro habs
        have habs' : n ∈ s.invoked := habs
        have := h.invokedLt _ habs'
        omega
      · exfalso
        have : (enqueueReq s pr t cb).statuses[i]? = none :=
          List.getElem?_eq_none (by omega)
        rw [this] at hst
        cases hst
  · intro i hi
    have := h.invokedLt i (by simpa [enqueueReq] using hi)
    omega

theorem qmInv_dispatchStart {s : QMState} (h : QMInv s) {q : QueuedRequest}
    {rest : List QueuedRequest} {t : Nat} {st0 : StatusInfo}
    (hq : s.queue = q :: rest)
    (hcap : s.active_requests.length < s.max_concurrent)
    (hst : s.statuses[q.request_id]? = some st0) :
    QMInv (dispatchStart s q rest t) := by
  have hqmem : q ∈ s.queue := by rw [hq]; exact List.mem_cons_self _ _
  have hrestmem : ∀ r ∈ rest, r ∈ s.queue := by
    intro r hr; rw [hq]; exact List.mem_cons_of_mem _ hr
  have hidne : ∀ r ∈ rest, r.request_id ≠ q.request_id := by
    intro r hr habs
    have hnodup := h.qNodup
    rw [hq] at hnodup
    simp only [List.map_cons, List.nodup_cons] at hnodup
    exact hnodup.1 (habs ▸ List.mem_map_of_mem QueuedRequest.request_id hr)
  constructor
  · have hs := h.sorted
    rw [hq] at hs
    exact (List.sorted_cons.mp hs).2
  · intro r hr
    have := h.qIdsLt r (hrestmem r hr)
    simpa [dispatchStart, updAt_length] using this
  · intro r hr st hst'
    have hne := hidne r hr
    rw [show (dispatchStart s q rest t).statuses =
          updAt s.statuses q.request_id
            (fun st => { st with status := .generating, started_at := some t })
        from rfl, updAt_get_ne _ _ _ _ hne] at hst'
    exact h.qStatus r (hrestmem r hr) st hst'
  · have hnodup := h.qNodup
    rw [hq] at hnodup
    simp only [List.map_cons, List.nodup_cons] at hnodup
    exact hnodup.2
  · intro r hr
    simp only [dispatchStart, List.mem_cons]
    push_neg
    exact ⟨hidne r hr, h.qActive r (hrestmem r hr)⟩
  · exact List.nodup_cons.mpr ⟨h.qActive q hqmem, h.activeNodup⟩
  · intro i hi
    rcases List.mem_cons.mp hi with rfl | hi'
    · simpa [dispatchStart, updAt_length] using h.qIdsLt q hqmem
    · simpa [dispatchStart, updAt_length] using h.activeLt i hi'
  · simpa [dispatchStart] using hcap
  · intro i st hst' hgen
    by_cases hij : i = q.request_id
    · subst hij
      exact List.mem_cons_self _ _
    · rw [show (dispatchStart s q rest t).statuses =
            updAt s.statuses q.request_id
              (fun st => { st with status := .generating, started_at := some t })
          from rfl, updAt_get_ne _ _ _ _ hij] at hst'
      exact List.mem_cons_of_mem _ (h.genActive i st hst' hgen)
  · intro i st hst' hqd
    by_cases hij : i = q.request_id
    · rw [show (dispatchStart s q rest t).statuses =
            updAt s.statuses q.request_id
              (fun st => { st with status := .generating, started_at := some t })
          from rfl, hij, updAt_get_self _ hst] at hst'
      cases hst'
      simp at hqd
    · rw [show (dispatchStart s q rest t).statuses =
            updAt s.statuses q.request_id
              (fun st => { st with status := .generating, started_at := some t })
          from rfl, updAt_get_ne _ _ _ _ hij] at hst'
      exact h.queuedNotInvoked i st hst' hqd
  · intro i hi
    simpa [dispatchStart, updAt_length] using h.invokedLt i hi

theorem qmInv_dispatchDiscard {s : QMState} (h : QMInv s) {q : QueuedRequest}
    {rest : List QueuedRequest} (hq : s.queue = q :: rest) :
    QMInv (dispatchDiscard s rest) := by
  have hrestmem : ∀ r ∈ rest, r ∈ s.queue := by
    intro r hr; rw [hq]; exact List.mem_cons_of_mem _ hr
  constructor
  · have hs := h.sorted
    rw [hq] at hs
    exact (List.sorted_cons.mp hs).2
  · exact fun r hr => h.qIdsLt r (hrestmem r hr)
  · exact fun r hr st hst => h.qStatus r (hrestmem r hr) st hst
  · have hnodup := h.qNodup
    rw [hq] at hnodup
    simp only [List.map_cons, List.nodup_cons] at hnodup
    exact hnodup.2
  · exact fun r hr => h.qActive r (hrestmem r hr)
  · exact h.activeNodup
  · exact h.activeLt
  · exact h.activeBound
  · exact h.genActive
  · exact h.queuedNotInvoked
  · exact h.invokedLt

theorem qmInv_completeReq {s : QMState} (h : QMInv s) {i : Nat} {st0 : StatusInfo}
    (hst : s.statuses[i]? = some st0) (hgen : st0.status = .generating)
    (t : Nat) (res : Option Nat) : QMInv (completeReq s i t res) := by
  have hupd : (completeReq s i t res).statuses =
      updAt s.statuses i
        (fun st => { st with status := .completed, progress := 100,
                             completed_at := some t, result := res }) := rfl
  constructor
  · exact h.sorted
  · intro r hr
    simpa [hupd, updAt_length] using h.qIdsLt r hr
  · intro r hr st hst'
    by_cases hij : r.request_id = i
    · exfalso
      rw [hij] at hst'
      rcases h.qStatus r hr st0 (hij ▸ hst) with h1 | h1 <;> rw [hgen] at h1 <;> cases h1
    · rw [hupd, updAt_get_ne _ _ _ _ hij] at hst'
      exact h.qStatus r hr st hst'
  · exact h.qNodup
  · exact h.qActive
  · exact h.activeNodup
  · intro j hj
    simpa [hupd, updAt_length] using h.activeLt j hj
  · exact h.activeBound
  · intro j st hst' hgen'
    by_cases hij : j = i
    · subst hij
      rw [hupd, updAt_get_self _ hst] at hst'
      cases hst'
      simp at hgen'
    · rw [hupd, updAt_get_ne _ _ _ _ hij] at hst'
      exact h.genActive j st hst' hgen'
  · intro j st hst' hq
    by_cases hij : j = i
    · subst hij
      rw [hupd, updAt_get_self _ hst] at hst'
      cases hst'
      simp at hq
    · rw [hupd, updAt_get_ne _ _ _ _ hij] at hst'
      exact h.queuedNotInvoked j st hst' hq
  · intro j hj
    simpa [hupd, updAt_length] using h.invokedLt j hj

theorem qmInv_failReq {s : QMState} (h : QMInv s) {i : Nat} {st0 : StatusInfo}
    (hst : s.statuses[i]? = some st0) (hgen : st0.status = .generating)
    (t : Nat) (msg : String) : QMInv (failReq s i t msg) := by
  have hupd : (failReq s i t msg).statuses =
      updAt s.statuses i
        (fun st => { st with status := .failed, error := some msg,
                             completed_at := some t }) := rfl
  constructor
  · exact h.sorted
  · intro r hr
    simpa [hupd, updAt_length] using h.qIdsLt r hr
  · intro r hr st hst'
    by_cases hij : r.request_id = i
    · exfalso
      rw [hij] at hst'
      rcases h.qStatus r hr st0 (hij ▸ hst) with h1 | h1 <;> rw [hgen] at h1 <;> cases h1
    · rw [hupd, updAt_get_ne _ _ _ _ hij] at hst'
      exact h.qStatus r hr st hst'
  · exact h.qNodup
  · exact h.qActive
  · exact h.activeNodup
  · intro j hj
    simpa [hupd, updAt_length] using h.activeLt j hj
  · exact h.activeBound
  · intro j st hst' hgen'
    by_cases hij : j = i
    · subst hij
      rw [hupd, updAt_get_self _ hst] at hst'
      cases hst'
      simp at hgen'
    · rw [hupd, updAt_get_ne _ _ _ _ hij] at hst'
      exact h.genActive j st hst' hgen'
  · intro j st hst' hq
    by_cases hij : j = i
    · subst hij
      rw [hupd, updAt_get_self _ hst] at hst'
      cases hst'
      simp at hq
    · rw [hupd, updAt_get_ne _ _ _ _ hij] at hst'
      exact h.queuedNotInvoked j st hst' hq
  · intro j hj
    simpa [hupd, updAt_length] using h.invokedLt j hj

theorem qmInv_invokeCb {s : QMState} (h : QMInv s) {i : Nat} {st0 : StatusInfo}
    (hact : i ∈ s.active_requests) (hst : s.statuses[i]? = some st0)
    (hgen : st0.status = .generating) : QMInv (invokeCb s i) := by
  constructor
  · exact h.sorted
  · exact h.qIdsLt
  · exact h.qStatus
  · exact h.qNodup
  · exact h.qActive
  · exact h.activeNodup
  · exact h.activeLt
  · exact h.activeBound
  · exact h.genActive
  · intro j st hst' hq habs
    have hst2 : s.statuses[j]? = some st := hst'
    rcases List.mem_cons.mp habs with rfl | habs'
    · rw [hst] at hst2
      cases hst2
      rw [hq] at hgen
      cases hgen
    · exact h.queuedNotInvoked j st hst2 hq habs'
  · intro j hj
    rcases List.mem_cons.mp hj with rfl | hj'
    · exact h.activeLt j hact
    · exact h.invokedLt j hj'

theorem qmInv_cancelReq {s : QMState} (h : QMInv s) (i t : Nat) :
    QMInv (cancelReq s i t) := by
  unfold cancelReq
  cases hsi : s.statuses[i]? with
  | none => exact h
  | some st0 =>
    by_cases hterm : st0.status.isTerminal
    · simpa [hterm] using h
    · simp only [hterm, Bool.false_eq_true, if_false]
      constructor
      · exact h.sorted
      · intro r hr
        simpa [updAt_length] using h.qIdsLt r hr
      · intro r hr st hst'
        by_cases hij : r.request_id = i
        · rw [hij, updAt_get_self _ hsi] at hst'
          cases hst'
          right; rfl
        · rw [updAt_get_ne _ _ _ _ hij] at hst'
          exact h.qStatus r hr st hst'
      · exact h.qNodup
      · intro r hr habs
        exact h.qActive r hr (List.mem_of_mem_filter habs)
      · exact h.activeNodup.filter _
      · intro j hj
        simpa [updAt_length] using h.activeLt j (List.mem_of_mem_filter hj)
      · exact le_trans (List.length_filter_le _ _) h.activeBound
      · intro j st hst' hgen'
        by_cases hij : j = i
        · subst hij
          rw [updAt_get_self _ hsi] at hst'
          cases hst'
          simp at hgen'
        · rw [updAt_get_ne _ _ _ _ hij] at hst'
          exact mem_filter_ne.mpr ⟨h.genActive j st hst' hgen', hij⟩
      · intro j st hst' hq
        by_cases hij : j = i
        · subst hij
          rw [updAt_get_self _ hsi] at hst'
          cases hst'
          simp at hq
        · rw [updAt_get_ne _ _ _ _ hij] at hst'
          exact h.queuedNotInvoked j st hst' hq
      · intro j hj
        simpa [updAt_length] using h.invokedLt j hj

theorem qmInv_reapTask {s : QMState} (h : QMInv s) {i : Nat} {st0 : StatusInfo}
    (hst : s.statuses[i]? = some st0) (hterm : st0.status.isTerminal = true) :
    QMInv (reapTask s i) := by
  constructor
  · exact h.sorted
  · exact h.qIdsLt
  · exact h.qStatus
  · exact h.qNodup
  · intro r hr habs
    exact h.qActive r hr (List.mem_of_mem_filter habs)
  · exact h.activeNodup.filter _
  · exact fun j hj => h.activeLt j (List.mem_of_mem_filter hj)
  · exact le_trans (List.length_filter_le _ _) h.activeBound
  · intro j st hst' hgen'
    have hst2 : s.statuses[j]? = some st := hst'
    refine mem_filter_ne.mpr ⟨h.genActive j st hst2 hgen', ?_⟩
    intro hji
    subst hji
    rw [hst] at hst2
    cases hst2
    rw [hgen'] at hterm
    simp [Status.isTerminal] at hterm
  · exact h.queuedNotInvoked
  · exact h.invokedLt

/-- Every event-loop turn preserves the structural invariant. -/
theorem qmInv_step {s s' : QMState} (h : QMInv s) (hstep : QStep s s') :
    QMInv s' := by
  cases hstep with
  | enqueue pr t cb _ => exact qmInv_enqueueReq h pr t cb
  | dispatch q rest t st hq hcap hst _ _ => exact qmInv_dispatchStart h hq hcap hst
  | discard q rest hq _ _ => exact qmInv_dispatchDiscard h hq
  | invoke i st hact hst hgen _ => exact qmInv_invokeCb h hact hst hgen
  | complete i t st res _ hst hgen _ => exact qmInv_completeReq h hst hgen t res
  | fail i t st msg _ hst hgen _ => exact qmInv_failReq h hst hgen t msg
  | cancel i t _ => exact qmInv_cancelReq h i t
  | reap i st _ hst hterm => exact qmInv_reapTask h hst hterm

/-- Every reachable queue-manager state satisfies the invariant. -/
theorem qReach_inv {s : QMState} (h : QReach s) : QMInv s := by
  induction h with
  | init maxConcurrent t0 => exact qmInv_init maxConcurrent t0
  | step _ hstep ih => exact qmInv_step ih hstep

/-! ## Freezing of terminal statuses -/

theorem cancelReq_invoked (s : QMState) (j t : Nat) :
    (cancelReq s j t).invoked = s.invoked := by
  unfold cancelReq
  cases s.statuses[j]? with
  | none => rfl
  | some st => by_cases h : st.status.isTerminal = true <;> simp [h]

/-- One event-loop turn never modifies the full status record of a request
that is already terminal. -/
theorem terminal_preserved {s s' : QMState} (hinv : QMInv s) (hstep : QStep s s')
    {i : Nat} {st : StatusInfo} (hst : s.statuses[i]? = some st)
    (hterm : st.status.isTerminal = true) : s'.statuses[i]? = some st := by
  cases hstep with
  | enqueue pr t cb _ =>
      have hlt : i < s.statuses.length := (List.getElem?_eq_some_iff.mp hst).1
      show (s.statuses ++ [_])[i]? = some st
      rw [List.getElem?_append_left hlt]
      exact hst
  | dispatch q rest t st0 hq hcap hst0 hnc _ =>
      have hne : i ≠ q.request_id := by
        intro hab
        rw [hab, hst0] at hst
        have heq : st0 = st := Option.some.inj hst
        have hqmem : q ∈ s.queue := by rw [hq]; exact List.mem_cons_self _ _
        rcases hinv.qStatus q hqmem st0 hst0 with h1 | h1
        · rw [← heq, h1] at hterm
          simp [Status.isTerminal] at hterm
        · exact hnc h1
      show (updAt s.statuses q.request_id _)[i]? = some st
      rw [updAt_get_ne _ _ _ _ hne]
      exact hst
  | discard q rest hq _ _ => exact hst
  | invoke j st0 _ _ _ _ => exact hst
  | complete j t st0 res _ hst0 hgen _ =>
      have hne : i ≠ j := by
        intro hab
        rw [hab, hst0] at hst
        cases hst
        rw [hgen] at hterm
        simp [Status.isTerminal] at hterm
      show (updAt s.statuses j _)[i]? = some st
      rw [updAt_get_ne _ _ _ _ hne]
      exact hst
  | fail j t st0 msg _ hst0 hgen _ =>
      have hne : i ≠ j := by
        intro hab
        rw [hab, hst0] at hst
        cases hst
        rw [hgen] at hterm
        simp [Status.isTerminal] at hterm
      show (updAt s.statuses j _)[i]? = some st
      rw [updAt_get_ne _ _ _ _ hne]
      exact hst
  | cancel j t _ =>
      unfold cancelReq
      cases hsj : s.statuses[j]? with
      | none => exact hst
      | some st0 =>
        by_cases hterm0 : st0.status.isTerminal
        · simpa [hterm0] using hst
        · simp only [hterm0, Bool.false_eq_true, if_false]
          have hne : i ≠ j := by
            intro hab
            rw [hab, hsj] at hst
            cases hst
            exact hterm0 hterm
          rw [updAt_get_ne _ _ _ _ hne]
          exact hst
  | reap j st0 _ _ _ => exact hst

/-- Terminal records stay frozen along any run of the event loop, and the
invariant persists. -/
theorem terminal_frozen {s s' : QMState} (hsteps : QSteps s s') (hinv : QMInv s)
    {i : Nat} {st : StatusInfo} (hst : s.statuses[i]? = some st)
    (hterm : st.status.isTerminal = true) :
    QMInv s' ∧ s'.statuses[i]? = some st := by
  induction hsteps with
  | refl => exact ⟨hinv, hst⟩
  | tail hpre hstep ih =>
      obtain ⟨hinv1, hst1⟩ := ih
      exact ⟨qmInv_step hinv1 hstep, terminal_preserved hinv1 hstep hst1 hterm⟩

/-- One event-loop turn never invokes the callback of a request whose status
is already terminal. -/
theorem qStep_not_invoked {s s' : QMState} (hstep : QStep s s')
    {i : Nat} {st : StatusInfo} (hst : s.statuses[i]? = some st)
    (hterm : st.status.isTerminal = true) (hninv : i ∉ s.invoked) :
    i ∉ s'.invoked := by
  cases hstep with
  | enqueue pr t cb _ => exact hninv
  | dispatch q rest t st0 _ _ _ _ _ => exact hninv
  | discard q rest _ _ _ => exact hninv
  | invoke j st0 hact hst0 hgen _ =>
      intro habs
      rcases List.mem_cons.mp habs with rfl | habs'
      · rw [hst0] at hst
        cases hst
        rw [hgen] at hterm
        simp [Status.isTerminal] at hterm
      · exact hninv habs'
  | complete j t st0 res _ _ _ _ => exact hninv
  | fail j t st0 msg _ _ _ _ => exact hninv
  | cancel j t _ =>
      rw [show (cancelReq s j t).invoked = s.invoked from cancelReq_invoked s j t]
      exact hninv
  | reap j st0 _ _ _ => exact hninv

/-- A request whose record is terminal and whose callback has not been invoked
never has it invoked in any later state. -/
theorem terminal_never_invoked {s s' : QMState} (hsteps : QSteps s s')
    (hinv : QMInv s) {i : Nat} {st : StatusInfo} (hst : s.statuses[i]? = some st)
    (hterm : st.status.isTerminal = true) (hninv : i ∉ s.invoked) :
    i ∉ s'.invoked := by
  induction hsteps with
  | refl => exact hninv
  | tail hpre hstep ih =>
      rename_i s1 s2
      obtain ⟨hinv1, hst1⟩ := terminal_frozen hpre hinv hst hterm
      exact qStep_not_invoked hstep hst1 hterm ih

/-! ## Counting `generating` requests -/

/-- Number of entries of `request_status` currently in `generating` status. -/
def countGenerating (s : QMState) : Nat :=
  s.statuses.countP (fun st => st.status == .generating)

/-- Whether request `i` is currently `generating`. -/
def isGeneratingAt (s : QMState) (i : Nat) : Bool :=
  match s.statuses[i]? with
  | some st => st.status == .generating
  | none => false

/-- The ids of the currently `generating` requests. -/
def genIds (s : QMState) : List Nat :=
  (List.range s.statuses.length).filter (fun i => isGeneratingAt s i)

theorem countP_eq_length_filter_range (l : List StatusInfo) (p : StatusInfo → Bool) :
    l.countP p =
      ((List.range l.length).filter
        (fun i => (l[i]?.map p).getD false)).length := by
  induction l with
  | nil => simp
  | cons a tl ih =>
      have harg :
          ((fun i => (((a :: tl)[i]?).map p).getD false) ∘ Nat.succ) =
            (fun i => ((tl[i]?).map p).getD false) := by
        funext i
        simp
      rw [List.countP_cons, List.length_cons, List.range_succ_eq_map,
        List.filter_cons, List.filter_map, harg]
      by_cases hpa : p a = true
      · simp [hpa, ih, Nat.add_comm]
      · simp [hpa, ih]

theorem countGenerating_eq_genIds (s : QMState) :
    countGenerating s = (genIds s).length := by
  unfold countGenerating genIds
  rw [countP_eq_length_filter_range]
  congr 1
  apply List.filter_congr
  intro i _
  unfold isGeneratingAt
  cases s.statuses[i]? <;> simp

/-! ## Claim C1 -/

/-- C1: among requests never yet dispatched, dispatch follows
`(priority, creationTime)` order.  Whenever the dispatch loop of
`process_queue` is about to pull the next item `q` (the head of the priority
queue) in any reachable manager state, every other still-queued item `r`
either has a strictly larger priority number (HIGH = 1 before NORMAL = 2
before LOW = 3) or the same priority and a creation time at least as late —
in particular a HIGH request submitted after a still-queued NORMAL one is
dispatched before it. -/
theorem c1_dispatch_in_priority_creation_order (s : QMState) (h : QReach s)
    (q : QueuedRequest) (rest : List QueuedRequest) (hq : s.queue = q :: rest) :
    ∀ r ∈ rest, q.priority.toNat < r.priority.toNat ∨
      (q.priority = r.priority ∧ q.created_at ≤ r.created_at) := by
  intro r hr
  have hs := (qReach_inv h).sorted
  rw [hq] at hs
  have hle := (List.sorted_cons.mp hs).1 r hr
  unfold qLe at hle
  rcases hle with h1 | h1
  · left; exact h1
  · right; exact ⟨Priority.toNat_inj h1.1, h1.2⟩

/-- Reachable scenario for the witnesses: a NORMAL request enqueued at time 1,
then a HIGH request enqueued at time 2. -/
def wNormalThenHigh : QMState :=
  enqueueReq (enqueueReq (initQM 3 0) .normal 1 none) .high 2 none

theorem wNormalThenHigh_reach : QReach wNormalThenHigh :=
  QReach.step
    (QReach.step (QReach.init 3 0)
      (QStep.enqueue (initQM 3 0) .normal 1 none (by decide)))
    (QStep.enqueue (enqueueReq (initQM 3 0) .normal 1 none) .high 2 none
      (by decide))

theorem c1_witness :
    wNormalThenHigh.queue =
      [⟨.high, 2, 1⟩, ⟨.normal, 1, 0⟩] ∧
    ((⟨.high, 2, 1⟩ : QueuedRequest).priority.toNat <
        (⟨.normal, 1, 0⟩ : QueuedRequest).priority.toNat ∨
      ((⟨.high, 2, 1⟩ : QueuedRequest).priority =
          (⟨.normal, 1, 0⟩ : QueuedRequest).priority ∧
        (⟨.high, 2, 1⟩ : QueuedRequest).created_at ≤
          (⟨.normal, 1, 0⟩ : QueuedRequest).created_at)) :=
  ⟨by decide,
    c1_dispatch_in_priority_creation_order wNormalThenHigh wNormalThenHigh_reach
      ⟨.high, 2, 1⟩ [⟨.normal, 1, 0⟩] (by decide) ⟨.normal, 1, 0⟩
      (List.mem_singleton.mpr rfl)⟩

/-! ## Claim C2 -/

/-- C2: in every state reachable by any sequence of enqueue, dispatch,
completion and cancellation steps, the number of requests whose status is
`generating` never exceeds the configured `max_concurrent` limit. -/
theorem c2_generating_bounded (s : QMState) (h : QReach s) :
    countGenerating s ≤ s.max_concurrent := by
  have hinv := qReach_inv h
  have hsub : genIds s ⊆ s.active_requests := by
    intro i hi
    unfold genIds at hi
    obtain ⟨hrange, hgen⟩ := List.mem_filter.mp hi
    unfold isGeneratingAt at hgen
    cases hsi : s.statuses[i]? with
    | none => rw [hsi] at hgen; cases hgen
    | some st =>
        rw [hsi] at hgen
        exact hinv.genActive i st hsi (by simpa using hgen)
  have hnodup : (genIds s).Nodup := (List.nodup_range _).filter _
  calc countGenerating s = (genIds s).length := countGenerating_eq_genIds s
    _ ≤ s.active_requests.length :=
        (List.subperm_of_subset hnodup hsub).length_le
    _ ≤ s.max_concurrent := hinv.activeBound

/-- Reachable scenario: a HIGH request enqueued at time 1 and dispatched at
time 2 on a manager with `max_concurrent = 1`; its status is `generating`. -/
def wDispatched : QMState :=
  dispatchStart (enqueueReq (initQM 1 0) .high 1 (some ())) ⟨.high, 1, 0⟩ [] 2

theorem wDispatched_reach : QReach wDispatched :=
  QReach.step
    (QReach.step (QReach.init 1 0)
      (QStep.enqueue (initQM 1 0) .high 1 (some ()) (by decide)))
    (QStep.dispatch (enqueueReq (initQM 1 0) .high 1 (some ())) ⟨.high, 1, 0⟩ []
      2
      { status := .queued, progress := 0, created_at := 1, priority := .high,
        callback := some (), error := none, result := none,
        started_at := none, completed_at := none }
      (by decide) (by decide) (by decide) (by decide) (by decide))

theorem c2_witness : countGenerating wDispatched ≤ wDispatched.max_concurrent :=
  c2_generating_bounded wDispatched wDispatched_reach

/-! ## Claim C3 -/

/-- C3: the status state machine.  In every reachable manager state:
(1) `cancel_request` on a request in a non-terminal state (`queued` or
`generating`) immediately sets its status to `cancelled` with a completion
timestamp; (2) once a request's record is terminal (`completed`, `failed` or
`cancelled`), no later run of the event loop ever changes it; (3) a
`cancel_request` on a still-`queued` request prevents its generation callback
from ever being invoked afterwards. -/
theorem c3_status_machine (s : QMState) (h : QReach s) :
    (∀ (i t : Nat) (st : StatusInfo),
      s.statuses[i]? = some st → st.status.isTerminal = false →
      ∃ st', (cancelReq s i t).statuses[i]? = some st' ∧
        st'.status = .cancelled ∧ st'.completed_at = some t) ∧
    (∀ (s' : QMState) (i : Nat) (st : StatusInfo),
      QSteps s s' → s.statuses[i]? = some st →
      st.status.isTerminal = true → s'.statuses[i]? = some st) ∧
    (∀ (i t : Nat) (st : StatusInfo),
      s.statuses[i]? = some st → st.status = .queued →
      ∀ s', QSteps (cancelReq s i t) s' → i ∉ s'.invoked) := by
  have hinv := qReach_inv h
  refine ⟨?_, ?_, ?_⟩
  · intro i t st hst hterm
    refine ⟨{ st with status := .cancelled, completed_at := some t }, ?_, rfl, rfl⟩
    unfold cancelReq
    rw [hst]
    simp only [hterm, Bool.false_eq_true, if_false]
    exact updAt_get_self _ hst
  · intro s' i st hsteps hst hterm
    exact (terminal_frozen hsteps hinv hst hterm).2
  · intro i t st hst hqueued
    have hcanc : (cancelReq s i t).statuses[i]? =
        some { st with status := .cancelled, completed_at := some t } := by
      unfold cancelReq
      rw [hst]
      have hterm : st.status.isTerminal = false := by rw [hqueued]; rfl
      simp only [hterm, Bool.false_eq_true, if_false]
      exact updAt_get_self _ hst
    have hninv : i ∉ (cancelReq s i t).invoked := by
      rw [cancelReq_invoked]
      exact hinv.queuedNotInvoked i st hst hqueued
    intro s' hsteps
    exact terminal_never_invoked hsteps (qmInv_cancelReq hinv i t) hcanc rfl hninv

theorem c3_witness :
    ((enqueueReq (initQM 3 0) .normal 1 (some ())).statuses[0]? =
      some { status := .queued, progress := 0, created_at := 1,
             priority := .normal, callback := some (), error := none,
             result := none, started_at := none, completed_at := none }) ∧
    (∃ st', (cancelReq (enqueueReq (initQM 3 0) .normal 1 (some ())) 0 2).statuses[0]? =
        some st' ∧ st'.status = .cancelled ∧ st'.completed_at = some 2) ∧
    (0 : Nat) ∉ (cancelReq (enqueueReq (initQM 3 0) .normal 1 (some ())) 0 2).invoked := by
  have hreach : QReach (enqueueReq (initQM 3 0) .normal 1 (some ())) :=
    QReach.step (QReach.init 3 0)
      (QStep.enqueue (initQM 3 0) .normal 1 (some ()) (by decide))
  have hst : (enqueueReq (initQM 3 0) .normal 1 (some ())).statuses[0]? =
      some { status := .queued, progress := 0, created_at := 1,
             priority := .normal, callback := some (), error := none,
             result := none, started_at := none, completed_at := none } := by decide
  refine ⟨hst, ?_, ?_⟩
  · exact (c3_status_machine _ hreach).1 0 2 _ hst rfl
  · exact (c3_status_machine _ hreach).2.2 0 2 _ hst rfl _ (QSteps.refl _)

/-! ## Status polling (queue_manager.py, get_status / get_queue_position) -/

/-- Source: `get_queue_position(request_id)`: −1 if the id is not in `queued_items`,
otherwise the index of the request in the list of still-queued items sorted by
`(priority, created_at)`. -/
def get_queue_position (s : QMState) (i : Nat) : Int :=
  if s.queued_items.all (fun p => p.1 ≠ i) then -1
  else
    match (List.insertionSort qLe (s.queued_items.map Prod.snd)).findIdx?
        (fun q => q.request_id == i) with
    | some n => (n : Int)
    | none => -1

/-- The dictionary returned by `get_status`: `request_status[request_id].copy()`
with the internal `callback` key popped (`callback = none` models the absent
key) and, for still-queued requests, the added `queue_position` key
(`none` models the key being absent for non-queued requests). -/
structure StatusView where
  status : Status
  progress : Nat
  created_at : Nat
  priority : Priority
  callback : Option Unit
  error : Option String
  result : Option Nat
  started_at : Option Nat
  completed_at : Option Nat
  queue_position : Option Int
deriving DecidableEq, Repr

/-- Source: `get_status(request_id)`: embedding of the method as state → (return
value, state).  The Python body only reads `self.request_status` and copies
the record (`status_info = self.request_status[request_id].copy()`), so the
state component is returned unchanged; mutating the returned `StatusView`
cannot affect the store because it is a value distinct from the stored
record, exactly as the dict copy is.  `none` models the not-found reply. -/
def get_status (s : QMState) (i : Nat) : Option StatusView × QMState :=
  match s.statuses[i]? with
  | none => (none, s)
  | some st =>
    (some { status := st.status, progress := st.progress,
            created_at := st.created_at, priority := st.priority,
            callback := none, error := st.error, result := st.result,
            started_at := st.started_at, completed_at := st.completed_at,
            queue_position :=
              if st.status = .queued then some (get_queue_position s i)
              else none },
     s)

/-- C9: for every known request id, `get_status` returns a copy of the
request's status record with the internal generation callback removed — the
returned view never carries the callback, every other field equals the stored
record — and the call leaves the scheduler's stored state (hence the status of
that and of every other request) completely unchanged. -/
theorem c9_get_status_copy_without_callback (s : QMState) (i : Nat)
    (st : StatusInfo) (h : s.statuses[i]? = some st) :
    (get_status s i).2 = s ∧
    ∃ v, (get_status s i).1 = some v ∧ v.callback = none ∧
      v.status = st.status ∧ v.progress = st.progress ∧
      v.created_at = st.created_at ∧ v.priority = st.priority ∧
      v.error = st.error ∧ v.result = st.result ∧
      v.started_at = st.started_at ∧ v.completed_at = st.completed_at := by
  unfold get_status
  rw [h]
  exact ⟨rfl, _, rfl, rfl, rfl, rfl, rfl, rfl, rfl, rfl, rfl, rfl⟩

theorem c9_witness :
    ((enqueueReq (initQM 3 0) .low 1 (some ())).statuses[0]? =
      some { status := .queued, progress := 0, created_at := 1,
             priority := .low, callback := some (), error := none,
             result := none, started_at := none, completed_at := none }) ∧
    (get_status (enqueueReq (initQM 3 0) .low 1 (some ())) 0).2 =
      enqueueReq (initQM 3 0) .low 1 (some ()) ∧
    ∃ v, (get_status (enqueueReq (initQM 3 0) .low 1 (some ())) 0).1 = some v ∧
      v.callback = none := by
  have hst : (enqueueReq (initQM 3 0) .low 1 (some ())).statuses[0]? =
      some { status := .queued, progress := 0, created_at := 1,
             priority := .low, callback := some (), error := none,
             result := none, started_at := none, completed_at := none } := by
    decide
  have hmain := c9_get_status_copy_without_callback
    (enqueueReq (initQM 3 0) .low 1 (some ())) 0 _ hst
  obtain ⟨hstate, v, hv, hcb, _⟩ := hmain
  exact ⟨hst, hstate, v, hv, hcb⟩

/-! ## Claim C10 -/

/-- Source: the `validate_priority` field validator on
`NarrationGenerateRequest.priority` (src/backend/models/narration_models.py,
lines 53-60): if the lowercased value is not one of `["high", "normal",
"low"]` it raises `ValueError` (FastAPI then rejects the request with a 422
validation error before the handler runs); otherwise the validated field
holds the lowercased value. -/
def validatePriority (v : String) : Except String String :=
  if pyLower v ∉ ["high", "normal", "low"] then
    .error ("Priority must be one of: " ++
      String.intercalate ", " ["high", "normal", "low"])
  else
    .ok (pyLower v)

/-- The POST generate endpoint's full handling of the caller-supplied
priority string: FastAPI first runs the request model's `validate_priority`
field validator (a raised `ValueError` rejects the request before the
handler body runs), and only then does the handler apply
`priority_map.get(request.priority.lower(), Priority.NORMAL)` to the
validated — already lowercased — field value. -/
def endpointPriority (p : String) : Except String Priority :=
  match validatePriority p with
  | .error msg => .error msg
  | .ok v => .ok (priorityFromString v)

/-- C10 as stated is false on the code: the Pydantic `validate_priority`
field validator on `NarrationGenerateRequest.priority` rejects every
unrecognized priority value with a validation error before the handler runs,
so the handler's NORMAL fallback is never exercised for unrecognized values.
Concrete input: priority string "weird" is rejected, not mapped to NORMAL. -/
theorem c10_counterexample :
    pyLower "weird" ≠ "high" ∧ pyLower "weird" ≠ "normal" ∧
    pyLower "weird" ≠ "low" ∧
    validatePriority "weird" =
      .error ("Priority must be one of: " ++
        String.intercalate ", " ["high", "normal", "low"]) ∧
    endpointPriority "weird" ≠ .ok .normal := by
  refine ⟨by decide, by decide, by decide, rfl, ?_⟩
  intro hab
  rw [show endpointPriority "weird" =
      .error ("Priority must be one of: " ++
        String.intercalate ", " ["high", "normal", "low"]) from rfl] at hab
  cases hab

/-- C10 amended: at the POST generate endpoint the caller-supplied priority
string is matched case-insensitively (via `.lower()`) against "high",
"normal" and "low": a recognized value passes the request model's field
validator (which lowercases it) and the handler maps it to the corresponding
priority, while every unrecognized value is rejected by the validator with a
validation error before the handler runs — it is not silently mapped to
NORMAL, and the handler's NORMAL fallback is dead code for unrecognized
values. -/
theorem c10_priority_validated_then_mapped (p : String) :
    (pyLower p = "high" →
      validatePriority p = .ok "high" ∧ endpointPriority p = .ok .high) ∧
    (pyLower p = "normal" →
      validatePriority p = .ok "normal" ∧ endpointPriority p = .ok .normal) ∧
    (pyLower p = "low" →
      validatePriority p = .ok "low" ∧ endpointPriority p = .ok .low) ∧
    (pyLower p ≠ "high" → pyLower p ≠ "normal" → pyLower p ≠ "low" →
      validatePriority p =
        .error ("Priority must be one of: " ++
          String.intercalate ", " ["high", "normal", "low"]) ∧
      endpointPriority p =
        .error ("Priority must be one of: " ++
          String.intercalate ", " ["high", "normal", "low"])) := by
  refine ⟨?_, ?_, ?_, ?_⟩
  · intro h1
    have hv : validatePriority p = .ok "high" := by
      unfold validatePriority
      rw [h1]
      rfl
    refine ⟨hv, ?_⟩
    unfold endpointPriority
    rw [hv]
    rfl
  · intro h1
    have hv : validatePriority p = .ok "normal" := by
      unfold validatePriority
      rw [h1]
      rfl
    refine ⟨hv, ?_⟩
    unfold endpointPriority
    rw [hv]
    rfl
  · intro h1
    have hv : validatePriority p = .ok "low" := by
      unfold validatePriority
      rw [h1]
      rfl
    refine ⟨hv, ?_⟩
    unfold endpointPriority
    rw [hv]
    rfl
  · intro h1 h2 h3
    have hmem : pyLower p ∉ ["high", "normal", "low"] := by
      simp [h1, h2, h3]
    have hv : validatePriority p =
        .error ("Priority must be one of: " ++
          String.intercalate ", " ["high", "normal", "low"]) := by
      unfold validatePriority
      rw [if_pos hmem]
    refine ⟨hv, ?_⟩
    unfold endpointPriority
    rw [hv]

theorem c10_witness :
    (pyLower "HIGH" = "high" ∧
      validatePriority "HIGH" = .ok "high" ∧
      endpointPriority "HIGH" = .ok .high) ∧
    (pyLower "WeIrD" ≠ "high" ∧ pyLower "WeIrD" ≠ "normal" ∧
      pyLower "WeIrD" ≠ "low" ∧
      validatePriority "WeIrD" =
        .error ("Priority must be one of: " ++
          String.intercalate ", " ["high", "normal", "low"]) ∧
      endpointPriority "WeIrD" =
        .error ("Priority must be one of: " ++
          String.intercalate ", " ["high", "normal", "low"])) := by
  have h1 := (c10_priority_validated_then_mapped "HIGH").1 (by decide)
  have h2 := (c10_priority_validated_then_mapped "WeIrD").2.2.2 (by decide)
    (by decide) (by decide)
  exact ⟨⟨by decide, h1.1, h1.2⟩,
    ⟨by decide, by decide, by decide, h2.1, h2.2⟩⟩

/-! ## Voice styles (voice_configs.py) -/

/-- Source: `class VoiceStyle(Enum)` of voice_configs.py. -/
inductive VoiceStyle where
  | ghostly_whisper
  | demonic_growl
  | eerie_narrator
  | possessed_child
  | ancient_entity
deriving DecidableEq, Repr

/-- String value of the `Enum` member. -/
def VoiceStyle.value : VoiceStyle → String
  | .ghostly_whisper => "ghostly_whisper"
  | .demonic_growl => "demonic_growl"
  | .eerie_narrator => "eerie_narrator"
  | .possessed_child => "possessed_child"
  | .ancient_entity => "ancient_entity"

/-- The keys of `VOICE_STYLE_CONFIGS` (all five styles carry a config entry),
which are also the keys of `self.voice_configs` built by the service
constructor. -/
def configuredStyles : List VoiceStyle :=
  [.ghostly_whisper, .demonic_growl, .eerie_narrator, .possessed_child,
   .ancient_entity]

/-- Source: `@dataclass NarrationRequest` of voice_service.py.  `content` is the text;
`intensity_level` is a Python int, so it is embedded as `Int`. -/
structure NarrationRequest where
  content : String
  voice_style : VoiceStyle
  intensity_level : Int
  variant_id : String
deriving DecidableEq, Repr

/-! ## The audio cache, modelled from the spec

`audio_cache.py` (class `AudioCacheManager`) is imported by voice_service.py
and cleanup.py but its source file is not in the tree; the operations below
are modelled from the specification §4.1. -/

/-- Modelled from the spec: a cache entry stores the audio blob and its
creation timestamp (capacity bookkeeping and last-access data are not needed
by any claim and are omitted). -/
structure CacheEntry where
  data : List Nat
  created_at : Nat
deriving DecidableEq, Repr

/-- Modelled from the spec: the cache index, bounded by a per-entry TTL. -/
structure AudioCache where
  ttl : Nat
  entries : List (String × CacheEntry)
deriving DecidableEq, Repr

/-- Modelled from the spec: `key(contentIdentity, voiceStyle)` is a pure,
deterministic fingerprint of the pair `(variant_id, voice_style)`; the pair
itself serves as the fingerprint. -/
def cacheKey (variantId : String) (style : VoiceStyle) : String :=
  variantId ++ ":" ++ style.value

/-- Modelled from the spec: `get(key)` returns the stored blob only if an
entry exists for the key and its age is at most the TTL; an expired hit is
treated as absent. -/
def cacheGet (c : AudioCache) (k : String) (now : Nat) : Option (List Nat) :=
  match c.entries.lookup k with
  | some e => if now - e.created_at ≤ c.ttl then some e.data else none
  | none => none

/-- Modelled from the spec: `put(key, blob, metadata)` stores the blob;
overwriting an existing key replaces its bytes and resets its age (capacity
eviction is not modelled — no claim depends on it). -/
def cachePut (c : AudioCache) (k : String) (data : List Nat) (now : Nat) :
    AudioCache :=
  { c with entries := (k, ⟨data, now⟩) :: c.entries.filter (fun p => p.1 ≠ k) }

/-- Modelled from the spec: `cleanupExpired()` removes every entry whose age
exceeds the TTL. -/
def cacheCleanupExpired (c : AudioCache) (now : Nat) : AudioCache :=
  { c with entries := c.entries.filter (fun p => now - p.2.created_at ≤ c.ttl) }

/-! ## The provider call (_call_tts_api, voice_service.py lines 325-482) -/

/-- What the external ElevenLabs provider does on one attempt: a stream of
audio bytes, an `ApiError` with status 429 (carrying an optional parseable
`retry-after` header value), a non-429 `ApiError`, an httpx
timeout/connect/network error, or an unexpected exception. -/
inductive AttemptOutcome where
  | success (audio : List Nat)
  | http429 (retryAfterHeader : Option Nat)
  | apiFailure (msg : String)
  | networkFailure (msg : String)
  | otherFailure (msg : String)
deriving DecidableEq, Repr

/-- The typed failures `_call_tts_api` can raise: `RateLimitError` with the
retry-after seconds, or the final `RuntimeError` wrapping the last cause
after all attempts fail. -/
inductive TtsError where
  | rateLimit (retryAfter : Nat)
  | provider (lastMsg : String)
deriving DecidableEq, Repr

/-- Result of one full `_call_tts_api` call: the value or raised error, the
number of attempts actually made, the backoff sleeps performed (in order),
and the value written to `self._rate_limit_reset_time` (if any). -/
structure TtsCallResult where
  result : Except TtsError (List Nat)
  attempts : Nat
  delays : List Nat
  rateLimitSet : Option Nat
deriving Repr

/-- Source: `delay = base_delay * (2 ** (attempt - 1))` with `base_delay = 2`. -/
def backoffDelay (attempt : Nat) : Nat := 2 * 2 ^ (attempt - 1)

/-- Whether an attempt outcome enters one of the retrying `except` branches
(non-429 ApiError, network error, unexpected exception — including the
`RuntimeError` raised on empty audio, which the generic handler catches). -/
def AttemptOutcome.retriable : AttemptOutcome → Bool
  | .success audio => audio.isEmpty
  | .http429 _ => false
  | .apiFailure _ => true
  | .networkFailure _ => true
  | .otherFailure _ => true

/-- The `str(last_exception)` recorded for a retried attempt. -/
def AttemptOutcome.failMsg : AttemptOutcome → String
  | .success _ => "TTS API returned empty audio data"
  | .http429 _ => ""
  | .apiFailure m => m
  | .networkFailure m => m
  | .otherFailure m => m

/-- The retry loop `for attempt in range(1, max_attempts + 1)` of
`_call_tts_api`.  `outcome a` is what the provider does on attempt `a`;
`remaining` is the number of attempts still allowed, `a` the current attempt
number, `lastErr` the recorded last exception, `delays` the sleeps already
performed.  A 429 sets the rate-limit reset time to `now` plus the parsed
`retry-after` header (default 60) and raises immediately; other failures
sleep `backoffDelay a` when `attempt < max_attempts` and retry; falling out
of the loop raises the wrapping `RuntimeError`. -/
def ttsGo (outcome : Nat → AttemptOutcome) (now : Nat) :
    Nat → Nat → String → List Nat → TtsCallResult
  | _remaining, a, lastErr, delays =>
    match _remaining with
    | 0 => { result := .error (.provider lastErr), attempts := a - 1,
             delays := delays, rateLimitSet := none }
    | r + 1 =>
      match outcome a with
      | .success audio =>
          if audio.isEmpty then
            ttsGo outcome now r (a + 1)
              (AttemptOutcome.failMsg (.success audio))
              (if 0 < r then delays ++ [backoffDelay a] else delays)
          else
            { result := .ok audio, attempts := a, delays := delays,
              rateLimitSet := none }
      | .http429 hdr =>
          { result := .error (.rateLimit (hdr.getD 60)), attempts := a,
            delays := delays, rateLimitSet := some (now + hdr.getD 60) }
      | .apiFailure msg =>
          ttsGo outcome now r (a + 1) msg
            (if 0 < r then delays ++ [backoffDelay a] else delays)
      | .networkFailure msg =>
          ttsGo outcome now r (a + 1) msg
            (if 0 < r then delays ++ [backoffDelay a] else delays)
      | .otherFailure msg =>
          ttsGo outcome now r (a + 1) msg
            (if 0 < r then delays ++ [backoffDelay a] else delays)

/-- Source: `max_attempts = 3`. -/
def maxAttempts : Nat := 3

/-- Source: `_call_tts_api(text, voice_config)` driven by the provider behaviour
`outcome` at wall-clock time `now`. -/
def callTtsApi (outcome : Nat → AttemptOutcome) (now : Nat) : TtsCallResult :=
  ttsGo outcome now maxAttempts 1 "" []

/-! ## Provider health state and generate_narration (voice_service.py) -/

/-- The provider-health fields of `VoiceNarrationService`:
`_api_healthy`, `_last_outage_check`, `_consecutive_failures` and
`_rate_limit_reset_time`. -/
structure HealthState where
  api_healthy : Bool
  last_outage_check : Nat
  consecutive_failures : Nat
  rate_limit_reset_time : Option Nat
deriving DecidableEq, Repr

/-- The typed failures `generate_narration` can raise: `ValueError`,
`RateLimitError` (with the announced wait in seconds), `APIOutageError`, and
the surfaced `RuntimeError` of an exhausted provider call. -/
inductive NarrationError where
  | validation (msg : String)
  | rateLimit (waitSeconds : Nat)
  | outage
  | provider (msg : String)
deriving DecidableEq, Repr

/-- Source: `@dataclass NarrationResult` of voice_service.py.  `duration` is the
byte-size heuristic `file_size / (16 * 1024)` (a Python float; embedded as a
rational). -/
structure NarrationResult where
  narration_id : String
  audio_url : String
  duration : ℚ
  file_size : Nat
  cached : Bool
deriving DecidableEq, Repr

/-- Full effect of one `generate_narration` call: the returned value or
raised error, the updated health state, the updated cache, and the number of
provider attempts made (`0` means the provider was never invoked). -/
structure GenOutput where
  result : Except NarrationError NarrationResult
  health : HealthState
  cache : AudioCache
  providerAttempts : Nat

/-- Source: `self._rate_limit_reset_time and datetime.now() < self._rate_limit_reset_time`. -/
def rlPending (h : HealthState) (now : Nat) : Bool :=
  match h.rate_limit_reset_time with
  | some rt => decide (now < rt)
  | none => false

/-- The announced wait `(reset_time - now).total_seconds()`. -/
def rlWait (h : HealthState) (now : Nat) : Nat :=
  match h.rate_limit_reset_time with
  | some rt => rt - now
  | none => 0

/-- Source: `generate_narration(request)` at wall-clock time `now`, with `freshId`
standing for the generated `uuid4` narration id and `outcome` for the
behaviour of the external provider on each attempt.  The body mirrors the
source order: voice-style validation, intensity validation, rate-limit
check, outage check (self-healing after 300 s), cache lookup, provider call
with failure bookkeeping. -/
def generateNarration (h : HealthState) (cache : AudioCache)
    (req : NarrationRequest) (now : Nat) (freshId : String)
    (outcome : Nat → AttemptOutcome) : GenOutput :=
  if req.voice_style ∉ configuredStyles then
    { result := .error (.validation
        ("Voice style " ++ req.voice_style.value ++ " is not configured")),
      health := h, cache := cache, providerAttempts := 0 }
  else if ¬(1 ≤ req.intensity_level ∧ req.intensity_level ≤ 5) then
    { result := .error (.validation
        ("Intensity level must be between 1 and 5, got " ++
          toString req.intensity_level)),
      health := h, cache := cache, providerAttempts := 0 }
  else if rlPending h now then
    { result := .error (.rateLimit (rlWait h now)),
      health := h, cache := cache, providerAttempts := 0 }
  else if h.api_healthy = false ∧ now - h.last_outage_check < 300 then
    { result := .error .outage, health := h, cache := cache,
      providerAttempts := 0 }
  else
    -- after 5 minutes the breaker self-heals: flag and counter reset
    let h1 := if h.api_healthy = false then
        { h with api_healthy := true, consecutive_failures := 0 }
      else h
    let key := cacheKey req.variant_id req.voice_style
    match cacheGet cache key now with
    | some data =>
        { result := .ok
            { narration_id := key,
              audio_url := "/api/narration/audio/" ++ key,
              duration := (data.length : ℚ) / (16 * 1024),
              file_size := data.length, cached := true },
          health := h1, cache := cache, providerAttempts := 0 }
    | none =>
        let call := callTtsApi outcome now
        match call.result with
        | .ok audio =>
            { result := .ok
                { narration_id := freshId,
                  audio_url := "/api/narration/audio/" ++ key,
                  duration := (audio.length : ℚ) / (16 * 1024),
                  file_size := audio.length, cached := false },
              health := { h1 with consecutive_failures := 0,
                                  api_healthy := true },
              cache := cachePut cache key audio now,
              providerAttempts := call.attempts }
        | .error (.rateLimit secs) =>
            { result := .error (.rateLimit secs),
              health := { h1 with rate_limit_reset_time := call.rateLimitSet },
              cache := cache, providerAttempts := call.attempts }
        | .error (.provider msg) =>
            if 5 ≤ h1.consecutive_failures + 1 then
              { result := .error .outage,
                health := { h1 with
                  consecutive_failures := h1.consecutive_failures + 1,
                  api_healthy := false, last_outage_check := now },
                cache := cache, providerAttempts := call.attempts }
            else
              { result := .error (.provider msg),
                health := { h1 with
                  consecutive_failures := h1.consecutive_failures + 1 },
                cache := cache, providerAttempts := call.attempts }

/-! ## Multi-call service traces -/

/-- The mutable state of a `VoiceNarrationService` between calls, together
with the last wall-clock time observed. -/
structure SvcState where
  health : HealthState
  cache : AudioCache
  clock : Nat

/-- State after one `generate_narration` call. -/
def svcApply (s : SvcState) (req : NarrationRequest) (now : Nat)
    (freshId : String) (outcome : Nat → AttemptOutcome) : SvcState :=
  { health := (generateNarration s.health s.cache req now freshId outcome).health
    cache := (generateNarration s.health s.cache req now freshId outcome).cache
    clock := now }

/-- One `generate_narration` call at a time that does not run backwards. -/
inductive SvcStep : SvcState → SvcState → Prop where
  | call (s : SvcState) (req : NarrationRequest) (now : Nat) (freshId : String)
      (outcome : Nat → AttemptOutcome) :
      s.clock ≤ now → SvcStep s (svcApply s req now freshId outcome)

/-- A freshly constructed service (`__init__`): healthy, zero consecutive
failures, no rate-limit reset time, `_last_outage_check = datetime.now()`. -/
def svcInit (now0 ttl : Nat) : SvcState :=
  { health := { api_healthy := true, last_outage_check := now0,
                consecutive_failures := 0, rate_limit_reset_time := none }
    cache := { ttl := ttl, entries := [] }
    clock := now0 }

/-- Service states reachable by any sequence of calls. -/
inductive SvcReach : SvcState → Prop where
  | init (now0 ttl : Nat) : SvcReach (svcInit now0 ttl)
  | step {s s' : SvcState} : SvcReach s → SvcStep s s' → SvcReach s'

/-! ## Service-trace invariant -/

/-- Provider-health invariant of any reachable service state: the recorded
outage timestamp never lies in the future, and while the outage flag is set
any recorded rate-limit reset time is no later than the moment the outage was
declared (a pending rate limit would have made the declaring call raise
`RateLimitError` before reaching the failure bookkeeping). -/
structure SvcInv (s : SvcState) : Prop where
  lastLeClock : s.health.last_outage_check ≤ s.clock
  rlBound : s.health.api_healthy = false →
    ∀ rt, s.health.rate_limit_reset_time = some rt →
      rt ≤ s.health.last_outage_check

theorem h1_healthy (h : HealthState) :
    (if h.api_healthy = false then
        { h with api_healthy := true, consecutive_failures := 0 }
      else h).api_healthy = true := by
  by_cases hh : h.api_healthy = false
  · simp [hh]
  · simp only [if_neg hh]
    revert hh
    cases h.api_healthy <;> simp

theorem gen_health_inv (h : HealthState) (cache : AudioCache)
    (req : NarrationRequest) (now : Nat) (freshId : String)
    (outcome : Nat → AttemptOutcome)
    (hlast : h.last_outage_check ≤ now) :
    (generateNarration h cache req now freshId outcome).health.last_outage_check ≤ now ∧
    ((generateNarration h cache req now freshId outcome).health.api_healthy = false →
      (generateNarration h cache req now freshId outcome).health = h ∨
      ((generateNarration h cache req now freshId outcome).health.rate_limit_reset_time
          = h.rate_limit_reset_time ∧
        (generateNarration h cache req now freshId outcome).health.last_outage_check = now ∧
        rlPending h now = false)) := by
  by_cases hv1 : req.voice_style ∉ configuredStyles
  · simp only [generateNarration, if_pos hv1]
    exact ⟨hlast, fun _ => Or.inl (by trivial)⟩
  · by_cases hv2 : ¬(1 ≤ req.intensity_level ∧ req.intensity_level ≤ 5)
    · simp only [generateNarration, if_neg hv1, if_pos hv2]
      exact ⟨hlast, fun _ => Or.inl (by trivial)⟩
    · by_cases hrlp : rlPending h now = true
      · simp only [generateNarration, if_neg hv1, if_neg hv2, if_pos hrlp]
        exact ⟨hlast, fun _ => Or.inl (by trivial)⟩
      · by_cases hout : h.api_healthy = false ∧ now - h.last_outage_check < 300
        · simp only [generateNarration, if_neg hv1, if_neg hv2, if_neg hrlp,
            if_pos hout]
          exact ⟨hlast, fun _ => Or.inl (by trivial)⟩
        · simp only [generateNarration, if_neg hv1, if_neg hv2, if_neg hrlp,
            if_neg hout]
          cases hcg : cacheGet cache (cacheKey req.variant_id req.voice_style) now with
          | some data =>
              simp only [hcg]
              constructor
              · by_cases hh : h.api_healthy = false <;> simp [hh, hlast]
              · intro habs
                rw [h1_healthy h] at habs
                cases habs
          | none =>
              simp only [hcg]
              cases hcr : (callTtsApi outcome now).result with
              | ok audio =>
                  simp only [hcr]
                  constructor
                  · by_cases hh : h.api_healthy = false <;> simp [hh, hlast]
                  · intro habs
                    cases habs
              | error e =>
                  cases e with
                  | rateLimit secs =>
                      simp only [hcr]
                      constructor
                      · by_cases hh : h.api_healthy = false <;> simp [hh, hlast]
                      · intro habs
                        rw [show ({ (if h.api_healthy = false then
                              { h with api_healthy := true,
                                       consecutive_failures := 0 }
                            else h) with rate_limit_reset_time :=
                              (callTtsApi outcome now).rateLimitSet } :
                            HealthState).api_healthy =
                            (if h.api_healthy = false then
                              { h with api_healthy := true,
                                       consecutive_failures := 0 }
                            else h).api_healthy from rfl, h1_healthy h] at habs
                        cases habs
                  | provider msg =>
                      simp only [hcr]
                      by_cases hth : 5 ≤ (if h.api_healthy = false then
                            { h with api_healthy := true,
                                     consecutive_failures := 0 }
                          else h).consecutive_failures + 1
                      · simp only [if_pos hth]
                        refine ⟨le_refl now, fun _ => Or.inr ⟨?_, by trivial, ?_⟩⟩
                        · by_cases hh : h.api_healthy = false <;> simp [hh]
                        · revert hrlp
                          cases rlPending h now <;> simp
                      · simp only [if_neg hth]
                        constructor
                        · by_cases hh : h.api_healthy = false <;> simp [hh, hlast]
                        · intro habs
                          rw [show ({ (if h.api_healthy = false then
                                { h with api_healthy := true,
                                         consecutive_failures := 0 }
                              else h) with consecutive_failures :=
                                (if h.api_healthy = false then
                                  { h with api_healthy := true,
                                           consecutive_failures := 0 }
                                else h).consecutive_failures + 1 } :
                              HealthState).api_healthy =
                              (if h.api_healthy = false then
                                { h with api_healthy := true,
                                         consecutive_failures := 0 }
                              else h).api_healthy from rfl, h1_healthy h] at habs
                          cases habs

theorem svcInv_init (now0 ttl : Nat) : SvcInv (svcInit now0 ttl) := by
  constructor
  · exact le_refl now0
  · intro habs
    cases habs

theorem svcInv_preserved {s s' : SvcState} (hinv : SvcInv s)
    (hstep : SvcStep s s') : SvcInv s' := by
  cases hstep with
  | call req now freshId outcome hle =>
      have hlast : s.health.last_outage_check ≤ now :=
        le_trans hinv.lastLeClock hle
      obtain ⟨h1, h2⟩ :=
        gen_health_inv s.health s.cache req now freshId outcome hlast
      constructor
      · exact h1
      · intro hunh rt hrt
        have hunh2 : (generateNarration s.health s.cache req now freshId
            outcome).health.api_healthy = false := hunh
        have hrt2 : (generateNarration s.health s.cache req now freshId
            outcome).health.rate_limit_reset_time = some rt := hrt
        show rt ≤ (generateNarration s.health s.cache req now freshId
            outcome).health.last_outage_check
        rcases h2 hunh2 with heq | ⟨hrleq, hlasteq, hnp⟩
        · rw [heq] at hrt2 ⊢
          rw [heq] at hunh2
          exact hinv.rlBound hunh2 rt hrt2
        · rw [hlasteq]
          rw [hrleq] at hrt2
          unfold rlPending at hnp
          rw [hrt2] at hnp
          simp at hnp
          exact hnp

/-- Every reachable service state satisfies the provider-health invariant. -/
theorem svcReach_inv {s : SvcState} (h : SvcReach s) : SvcInv s := by
  induction h with
  | init now0 ttl => exact svcInv_init now0 ttl
  | step _ hstep ih => exact svcInv_preserved ih hstep

/-! ## Stepping lemmas for the provider retry loop -/

theorem ttsGo_retriable_step (o : Nat → AttemptOutcome) (now r a : Nat)
    (lastErr : String) (d : List Nat) (h : (o a).retriable = true) :
    ttsGo o now (r + 1) a lastErr d =
      ttsGo o now r (a + 1) ((o a).failMsg)
        (if 0 < r then d ++ [backoffDelay a] else d) := by
  cases ho : o a with
  | success audio =>
      rw [ho] at h
      simp only [AttemptOutcome.retriable] at h
      simp [ttsGo, ho, h, AttemptOutcome.failMsg]
  | http429 hdr =>
      rw [ho] at h
      simp [AttemptOutcome.retriable] at h
  | apiFailure m => simp [ttsGo, ho, AttemptOutcome.failMsg]
  | networkFailure m => simp [ttsGo, ho, AttemptOutcome.failMsg]
  | otherFailure m => simp [ttsGo, ho, AttemptOutcome.failMsg]

theorem ttsGo_429 (o : Nat → AttemptOutcome) (now r a : Nat)
    (lastErr : String) (d : List Nat) (hdr : Option Nat)
    (h : o a = .http429 hdr) :
    ttsGo o now (r + 1) a lastErr d =
      { result := .error (.rateLimit (hdr.getD 60)), attempts := a,
        delays := d, rateLimitSet := some (now + hdr.getD 60) } := by
  simp [ttsGo, h]

theorem ttsGo_success (o : Nat → AttemptOutcome) (now r a : Nat)
    (lastErr : String) (d : List Nat) (audio : List Nat)
    (h : o a = .success audio) (hne : audio ≠ []) :
    ttsGo o now (r + 1) a lastErr d =
      { result := .ok audio, attempts := a, delays := d,
        rateLimitSet := none } := by
  have hie : audio.isEmpty = false := by
    cases audio with
    | nil => exact absurd rfl hne
    | cons x xs => rfl
  simp [ttsGo, h, hie]

theorem ttsGo_exhausted (o : Nat → AttemptOutcome) (now a : Nat)
    (lastErr : String) (d : List Nat) :
    ttsGo o now 0 a lastErr d =
      { result := .error (.provider lastErr), attempts := a - 1,
        delays := d, rateLimitSet := none } := rfl

/-! ## Claim C6 -/

/-- C6: the provider call makes at most 3 attempts; an attempt answered with
a 429 sets the rate-limit reset time to `now` plus the provider-supplied
retry-after hint (default 60 s) and raises `RateLimitError` immediately with
no further attempts; every other provider/network/timeout failure is followed
by a sleep of `2^(attempt−1) · 2` seconds before the next attempt; and after
3 failed attempts the wrapping error carrying the last cause is raised (the
sleeps performed are then exactly `[2, 4]`). -/
theorem c6_provider_retry_policy (outcome : Nat → AttemptOutcome) (now : Nat) :
    (callTtsApi outcome now).attempts ≤ 3 ∧
    (∀ k hdr, 1 ≤ k → k ≤ 3 → outcome k = .http429 hdr →
      (∀ j, 1 ≤ j → j < k → (outcome j).retriable = true) →
      (callTtsApi outcome now).result = .error (.rateLimit (hdr.getD 60)) ∧
      (callTtsApi outcome now).attempts = k ∧
      (callTtsApi outcome now).rateLimitSet = some (now + hdr.getD 60) ∧
      (callTtsApi outcome now).delays =
        (List.range (k - 1)).map (fun i => 2 * 2 ^ i)) ∧
    ((∀ j, 1 ≤ j → j ≤ 3 → (outcome j).retriable = true) →
      (callTtsApi outcome now).result =
        .error (.provider ((outcome 3).failMsg)) ∧
      (callTtsApi outcome now).attempts = 3 ∧
      (callTtsApi outcome now).delays = [2, 4]) ∧
    (∀ k audio, 1 ≤ k → k ≤ 3 → outcome k = .success audio → audio ≠ [] →
      (∀ j, 1 ≤ j → j < k → (outcome j).retriable = true) →
      (callTtsApi outcome now).result = .ok audio ∧
      (callTtsApi outcome now).attempts = k) := by
  have hcall : callTtsApi outcome now = ttsGo outcome now 3 1 "" [] := rfl
  refine ⟨?_, ?_, ?_, ?_⟩
  · -- at most 3 attempts, by running the three possible attempts
    rw [hcall]
    by_cases h1 : (outcome 1).retriable = true
    · rw [ttsGo_retriable_step outcome now 2 1 "" [] h1]
      by_cases h2 : (outcome 2).retriable = true
      · rw [ttsGo_retriable_step outcome now 1 2 _ _ h2]
        by_cases h3 : (outcome 3).retriable = true
        · rw [ttsGo_retriable_step outcome now 0 3 _ _ h3, ttsGo_exhausted]
        · cases ho : outcome 3 with
          | success audio =>
              rw [ho] at h3
              simp only [AttemptOutcome.retriable] at h3
              have hne : audio ≠ [] := by
                intro hab
                rw [hab] at h3
                exact h3 rfl
              rw [ttsGo_success outcome now 0 3 _ _ audio ho hne]
          | http429 hdr => rw [ttsGo_429 outcome now 0 3 _ _ hdr ho]
          | apiFailure m => rw [ho] at h3; simp [AttemptOutcome.retriable] at h3
          | networkFailure m => rw [ho] at h3; simp [AttemptOutcome.retriable] at h3
          | otherFailure m => rw [ho] at h3; simp [AttemptOutcome.retriable] at h3
      · cases ho : outcome 2 with
        | success audio =>
            rw [ho] at h2
            simp only [AttemptOutcome.retriable] at h2
            have hne : audio ≠ [] := by
              intro hab
              rw [hab] at h2
              exact h2 rfl
            rw [ttsGo_success outcome now 1 2 _ _ audio ho hne]
            simp
        | http429 hdr =>
            rw [ttsGo_429 outcome now 1 2 _ _ hdr ho]
            simp
        | apiFailure m => rw [ho] at h2; simp [AttemptOutcome.retriable] at h2
        | networkFailure m => rw [ho] at h2; simp [AttemptOutcome.retriable] at h2
        | otherFailure m => rw [ho] at h2; simp [AttemptOutcome.retriable] at h2
    · cases ho : outcome 1 with
      | success audio =>
          rw [ho] at h1
          simp only [AttemptOutcome.retriable] at h1
          have hne : audio ≠ [] := by
            intro hab
            rw [hab] at h1
            exact h1 rfl
          rw [ttsGo_success outcome now 2 1 _ _ audio ho hne]
          simp
      | http429 hdr =>
          rw [ttsGo_429 outcome now 2 1 _ _ hdr ho]
          simp
      | apiFailure m => rw [ho] at h1; simp [AttemptOutcome.retriable] at h1
      | networkFailure m => rw [ho] at h1; simp [AttemptOutcome.retriable] at h1
      | otherFailure m => rw [ho] at h1; simp [AttemptOutcome.retriable] at h1
  · -- the 429 cases
    intro k hdr hk1 hk3 h429 hprev
    rw [hcall]
    interval_cases k
    · rw [ttsGo_429 outcome now 2 1 _ _ hdr h429]
      simp
    · have h1 := hprev 1 (by omega) (by omega)
      rw [ttsGo_retriable_step outcome now 2 1 "" [] h1,
        ttsGo_429 outcome now 1 2 _ _ hdr h429]
      refine ⟨rfl, rfl, rfl, ?_⟩
      simp [backoffDelay, List.range_succ]
    · have h1 := hprev 1 (by omega) (by omega)
      have h2 := hprev 2 (by omega) (by omega)
      rw [ttsGo_retriable_step outcome now 2 1 "" [] h1,
        ttsGo_retriable_step outcome now 1 2 _ _ h2,
        ttsGo_429 outcome now 0 3 _ _ hdr h429]
      refine ⟨rfl, rfl, rfl, ?_⟩
      simp [backoffDelay, List.range_succ]
  · -- all three attempts fail with retriable errors
    intro hall
    rw [hcall]
    have h1 := hall 1 (by omega) (by omega)
    have h2 := hall 2 (by omega) (by omega)
    have h3 := hall 3 (by omega) (by omega)
    rw [ttsGo_retriable_step outcome now 2 1 "" [] h1,
      ttsGo_retriable_step outcome now 1 2 _ _ h2,
      ttsGo_retriable_step outcome now 0 3 _ _ h3, ttsGo_exhausted]
    refine ⟨rfl, rfl, ?_⟩
    simp [backoffDelay]
  · -- success after some retried failures
    intro k audio hk1 hk3 hsucc hne hprev
    rw [hcall]
    interval_cases k
    · rw [ttsGo_success outcome now 2 1 _ _ audio hsucc hne]
      exact ⟨rfl, rfl⟩
    · have h1 := hprev 1 (by omega) (by omega)
      rw [ttsGo_retriable_step outcome now 2 1 "" [] h1,
        ttsGo_success outcome now 1 2 _ _ audio hsucc hne]
      exact ⟨rfl, rfl⟩
    · have h1 := hprev 1 (by omega) (by omega)
      have h2 := hprev 2 (by omega) (by omega)
      rw [ttsGo_retriable_step outcome now 2 1 "" [] h1,
        ttsGo_retriable_step outcome now 1 2 _ _ h2,
        ttsGo_success outcome now 0 3 _ _ audio hsucc hne]
      exact ⟨rfl, rfl⟩

/-- Provider behaviour for the C6 witness: attempt 1 times out, attempt 2 is
answered with 429 and a retry-after hint of 30 s. -/
def wOutcome429 : Nat → AttemptOutcome := fun a =>
  if a = 1 then .networkFailure "timeout" else .http429 (some 30)

theorem c6_witness :
    (callTtsApi wOutcome429 100).attempts ≤ 3 ∧
    ((callTtsApi wOutcome429 100).result = .error (.rateLimit 30) ∧
      (callTtsApi wOutcome429 100).attempts = 2 ∧
      (callTtsApi wOutcome429 100).rateLimitSet = some 130 ∧
      (callTtsApi wOutcome429 100).delays = [2]) := by
  have hmain := c6_provider_retry_policy wOutcome429 100
  refine ⟨hmain.1, ?_⟩
  have h429 := hmain.2.1 2 (some 30) (by omega) (by omega) (by decide)
    (by intro j hj1 hj2; interval_cases j; decide)
  obtain ⟨hres, hatt, hset, hdel⟩ := h429
  refine ⟨hres, hatt, hset, ?_⟩
  rw [hdel]
  decide

/-! ## Claim C7 -/

/-- C7: when execution reaches the cache lookup (the request is valid and
neither the rate-limit check nor the outage check fires) and the
`(content-identity, voice-style)` cache key has a live (non-expired) entry,
`generate_narration` returns success with `cached = true`, the stored blob's
byte size, and a duration equal to `byteSize / 16384` (the ≈128 kbps
approximation), without attempting any provider call and without touching
the cache. -/
theorem c7_cache_hit_result (h : HealthState) (cache : AudioCache)
    (req : NarrationRequest) (now : Nat) (freshId : String)
    (outcome : Nat → AttemptOutcome) (data : List Nat)
    (hstyle : req.voice_style ∈ configuredStyles)
    (hint : 1 ≤ req.intensity_level ∧ req.intensity_level ≤ 5)
    (hnorl : rlPending h now = false)
    (hout : ¬(h.api_healthy = false ∧ now - h.last_outage_check < 300))
    (hhit : cacheGet cache (cacheKey req.variant_id req.voice_style) now =
      some data) :
    (∃ r, (generateNarration h cache req now freshId outcome).result = .ok r ∧
      r.cached = true ∧ r.file_size = data.length ∧
      r.duration = (data.length : ℚ) / 16384 ∧
      r.narration_id = cacheKey req.variant_id req.voice_style) ∧
    (generateNarration h cache req now freshId outcome).providerAttempts = 0 ∧
    (generateNarration h cache req now freshId outcome).cache = cache := by
  have hv1 : ¬(req.voice_style ∉ configuredStyles) := not_not_intro hstyle
  have hv2 : ¬¬(1 ≤ req.intensity_level ∧ req.intensity_level ≤ 5) :=
    not_not_intro hint
  have hrl2 : ¬(rlPending h now = true) := by simp [hnorl]
  simp only [generateNarration, if_neg hv1, if_neg hv2, if_neg hrl2,
    if_neg hout, hhit]
  refine ⟨⟨{ narration_id := cacheKey req.variant_id req.voice_style,
             audio_url := "/api/narration/audio/" ++
               cacheKey req.variant_id req.voice_style,
             duration := (data.length : ℚ) / (16 * 1024),
             file_size := data.length, cached := true },
           rfl, rfl, rfl, ?_, rfl⟩, trivial, trivial⟩
  norm_num

/-- Health state of a freshly constructed, healthy service. -/
def wHealth : HealthState :=
  { api_healthy := true, last_outage_check := 0, consecutive_failures := 0,
    rate_limit_reset_time := none }

/-- A valid narration request used by the witnesses. -/
def wReq : NarrationRequest :=
  { content := "a spooky tale", voice_style := .ghostly_whisper,
    intensity_level := 3, variant_id := "v1" }

/-- A cache holding a live 3-byte blob under the witness request's key. -/
def wCacheHit : AudioCache :=
  { ttl := 86400,
    entries := [(cacheKey "v1" .ghostly_whisper,
      { data := [7, 7, 7], created_at := 50 })] }

/-- Provider behaviour that always fails with an unexpected error. -/
def wFail : Nat → AttemptOutcome := fun _ => .otherFailure "boom"

theorem c7_witness :
    (wReq.voice_style ∈ configuredStyles ∧
      (1 ≤ wReq.intensity_level ∧ wReq.intensity_level ≤ 5) ∧
      rlPending wHealth 100 = false ∧
      cacheGet wCacheHit (cacheKey wReq.variant_id wReq.voice_style) 100 =
        some [7, 7, 7]) ∧
    ((∃ r, (generateNarration wHealth wCacheHit wReq 100 "fid" wFail).result =
        .ok r ∧ r.cached = true ∧ r.file_size = 3 ∧
        r.duration = (3 : ℚ) / 16384 ∧
        r.narration_id = cacheKey wReq.variant_id wReq.voice_style) ∧
      (generateNarration wHealth wCacheHit wReq 100 "fid" wFail).providerAttempts = 0 ∧
      (generateNarration wHealth wCacheHit wReq 100 "fid" wFail).cache = wCacheHit) := by
  refine ⟨⟨by decide, by decide, by decide, by decide⟩, ?_⟩
  exact c7_cache_hit_result wHealth wCacheHit wReq 100 "fid" wFail [7, 7, 7]
    (by decide) (by decide) (by decide) (by decide) (by decide)

/-! ## Claim C4 -/

/-- C4 as stated is false on the code: the rate-limit check
(voice_service.py line 162) runs before the outage check (line 169), so a
call made while the outage flag is set, less than 5 minutes old, but with a
pending rate-limit reset time fails with `RateLimitError`, not `OutageError`.
Concrete run: flag set at time 1000, call at 1100 (elapsed 100 s < 300 s)
with reset time 1500 pending. -/
def c4hState : HealthState :=
  { api_healthy := false, last_outage_check := 1000,
    consecutive_failures := 5, rate_limit_reset_time := some 1500 }

/-- An empty cache. -/
def wEmptyCache : AudioCache := { ttl := 86400, entries := [] }

theorem c4_counterexample :
    c4hState.api_healthy = false ∧
    1100 - c4hState.last_outage_check < 300 ∧
    rlPending c4hState 1100 = true ∧
    (generateNarration c4hState wEmptyCache wReq 1100 "fid" wFail).result =
      .error (.rateLimit 400) ∧
    (generateNarration c4hState wEmptyCache wReq 1100 "fid" wFail).result ≠
      .error .outage := by
  refine ⟨rfl, by decide, rfl, rfl, ?_⟩
  intro hab
  rw [show (generateNarration c4hState wEmptyCache wReq 1100 "fid" wFail).result =
      .error (.rateLimit 400) from rfl] at hab
  cases hab

/-- C4 amended: for every valid generate call made while the outage flag is
set, **provided no rate-limit reset time is pending** (the rate-limit check
precedes the outage check; with a pending reset time the call fails fast
with `RateLimitError` instead, also without a provider call): if less than 5
minutes have elapsed since the outage was declared the call fails
immediately with `OutageError`, no provider call is attempted and no state
changes; once 5 minutes or more have elapsed, the call clears the outage
flag and the consecutive-failure counter and proceeds exactly as a healthy
service would. -/
theorem c4_outage_fast_fail_and_cooldown (h : HealthState)
    (cache : AudioCache) (req : NarrationRequest) (now : Nat)
    (freshId : String) (outcome : Nat → AttemptOutcome)
    (hstyle : req.voice_style ∈ configuredStyles)
    (hint : 1 ≤ req.intensity_level ∧ req.intensity_level ≤ 5)
    (hnorl : rlPending h now = false)
    (hunh : h.api_healthy = false) :
    (now - h.last_outage_check < 300 →
      (generateNarration h cache req now freshId outcome).result =
        .error .outage ∧
      (generateNarration h cache req now freshId outcome).providerAttempts = 0 ∧
      (generateNarration h cache req now freshId outcome).health = h ∧
      (generateNarration h cache req now freshId outcome).cache = cache) ∧
    (300 ≤ now - h.last_outage_check →
      generateNarration h cache req now freshId outcome =
        generateNarration
          { h with api_healthy := true, consecutive_failures := 0 }
          cache req now freshId outcome) := by
  have hv1 : ¬(req.voice_style ∉ configuredStyles) := not_not_intro hstyle
  have hv2 : ¬¬(1 ≤ req.intensity_level ∧ req.intensity_level ≤ 5) :=
    not_not_intro hint
  have hrl2 : ¬(rlPending h now = true) := by simp [hnorl]
  constructor
  · intro hlt
    simp only [generateNarration, if_neg hv1, if_neg hv2, if_neg hrl2,
      if_pos (And.intro hunh hlt)]
    refine ⟨?_, ?_, ?_, ?_⟩ <;> trivial
  · intro hge
    have hout1 : ¬(h.api_healthy = false ∧ now - h.last_outage_check < 300) := by
      intro hand
      omega
    have hrl3 : ¬(rlPending
        { h with api_healthy := true, consecutive_failures := 0 } now = true) :=
      hrl2
    have hout2 : ¬(({ h with api_healthy := true, consecutive_failures := 0 } :
        HealthState).api_healthy = false ∧
        now - ({ h with api_healthy := true, consecutive_failures := 0 } :
          HealthState).last_outage_check < 300) := by
      intro hand
      exact absurd hand.1 (by simp)
    simp only [generateNarration, if_neg hv1, if_neg hv2, if_neg hrl2,
      if_neg hrl3, if_neg hout1, if_neg hout2, if_pos hunh]
    have hh1 : (if ({ h with api_healthy := true, consecutive_failures := 0 } :
        HealthState).api_healthy = false then
          { ({ h with api_healthy := true, consecutive_failures := 0 } :
              HealthState) with
            api_healthy := true, consecutive_failures := 0 }
        else { h with api_healthy := true, consecutive_failures := 0 }) =
        ({ h with api_healthy := true, consecutive_failures := 0 } :
          HealthState) := by
      simp
    rw [hh1]

theorem c4_amended_witness :
    (wReq.voice_style ∈ configuredStyles ∧
      (1 ≤ wReq.intensity_level ∧ wReq.intensity_level ≤ 5) ∧
      rlPending { c4hState with rate_limit_reset_time := none } 1100 = false ∧
      ({ c4hState with rate_limit_reset_time := none } :
        HealthState).api_healthy = false ∧
      1100 - ({ c4hState with rate_limit_reset_time := none } :
        HealthState).last_outage_check < 300) ∧
    ((generateNarration { c4hState with rate_limit_reset_time := none }
        wEmptyCache wReq 1100 "fid" wFail).result = .error .outage ∧
      (generateNarration { c4hState with rate_limit_reset_time := none }
        wEmptyCache wReq 1100 "fid" wFail).providerAttempts = 0 ∧
      (generateNarration { c4hState with rate_limit_reset_time := none }
        wEmptyCache wReq 1100 "fid" wFail).health =
        { c4hState with rate_limit_reset_time := none } ∧
      (generateNarration { c4hState with rate_limit_reset_time := none }
        wEmptyCache wReq 1100 "fid" wFail).cache = wEmptyCache) := by
  refine ⟨⟨by decide, by decide, by decide, by decide, by decide⟩, ?_⟩
  exact (c4_outage_fast_fail_and_cooldown
    { c4hState with rate_limit_reset_time := none } wEmptyCache wReq 1100
    "fid" wFail (by decide) (by decide) (by decide) (by decide)).1 (by decide)

/-! ## Claim C5 -/

/-- C5: the consecutive-failure counter and the outage breaker.
(a) Every successful provider call (a non-cached success) resets the counter
to zero and clears the outage flag.  (b) A `RateLimitError` never increments
the counter and never sets the flag.  (c) A failure exhausting the retries
increments the counter by exactly one; when the counter reaches 5 the outage
flag and its declared-at timestamp are set and this very call already fails
with `OutageError`, otherwise the provider error is surfaced unchanged.
(d) In every reachable service state with the flag set, a valid call within
the 5-minute cooldown fails fast with `OutageError` and never reaches the
provider. -/
theorem c5_failure_counter_and_breaker :
    (∀ (h : HealthState) (cache : AudioCache) (req : NarrationRequest)
        (now : Nat) (freshId : String) (outcome : Nat → AttemptOutcome)
        (r : NarrationResult),
      (generateNarration h cache req now freshId outcome).result = .ok r →
      r.cached = false →
      (generateNarration h cache req now freshId outcome).health.consecutive_failures = 0 ∧
      (generateNarration h cache req now freshId outcome).health.api_healthy = true) ∧
    (∀ (h : HealthState) (cache : AudioCache) (req : NarrationRequest)
        (now : Nat) (freshId : String) (outcome : Nat → AttemptOutcome)
        (k : Nat),
      (generateNarration h cache req now freshId outcome).result =
        .error (.rateLimit k) →
      (generateNarration h cache req now freshId outcome).health.consecutive_failures ≤
        h.consecutive_failures ∧
      (h.api_healthy = true →
        (generateNarration h cache req now freshId outcome).health.api_healthy = true)) ∧
    (∀ (h : HealthState) (cache : AudioCache) (req : NarrationRequest)
        (now : Nat) (freshId : String) (outcome : Nat → AttemptOutcome)
        (msg : String),
      h.api_healthy = true →
      req.voice_style ∈ configuredStyles →
      (1 ≤ req.intensity_level ∧ req.intensity_level ≤ 5) →
      rlPending h now = false →
      cacheGet cache (cacheKey req.variant_id req.voice_style) now = none →
      (callTtsApi outcome now).result = .error (.provider msg) →
      (generateNarration h cache req now freshId outcome).health.consecutive_failures =
        h.consecutive_failures + 1 ∧
      (5 ≤ h.consecutive_failures + 1 →
        (generateNarration h cache req now freshId outcome).result = .error .outage ∧
        (generateNarration h cache req now freshId outcome).health.api_healthy = false ∧
        (generateNarration h cache req now freshId outcome).health.last_outage_check = now) ∧
      (h.consecutive_failures + 1 < 5 →
        (generateNarration h cache req now freshId outcome).result =
          .error (.provider msg) ∧
        (generateNarration h cache req now freshId outcome).health.api_healthy = true)) ∧
    (∀ s : SvcState, SvcReach s → s.health.api_healthy = false →
      ∀ (req : NarrationRequest) (now : Nat) (freshId : String)
        (outcome : Nat → AttemptOutcome),
        s.clock ≤ now → now - s.health.last_outage_check < 300 →
        req.voice_style ∈ configuredStyles →
        (1 ≤ req.intensity_level ∧ req.intensity_level ≤ 5) →
        (generateNarration s.health s.cache req now freshId outcome).result =
          .error .outage ∧
        (generateNarration s.health s.cache req now freshId outcome).providerAttempts = 0) := by
  refine ⟨?_, ?_, ?_, ?_⟩
  · -- (a) success resets the counter and clears the flag
    intro h cache req now freshId outcome r hres hcached
    by_cases hv1 : req.voice_style ∉ configuredStyles
    · simp only [generateNarration, if_pos hv1] at hres
      simp at hres
    by_cases hv2 : ¬(1 ≤ req.intensity_level ∧ req.intensity_level ≤ 5)
    · simp only [generateNarration, if_neg hv1, if_pos hv2] at hres
      simp at hres
    by_cases hrlp : rlPending h now = true
    · simp only [generateNarration, if_neg hv1, if_neg hv2, if_pos hrlp] at hres
      simp at hres
    by_cases hout : h.api_healthy = false ∧ now - h.last_outage_check < 300
    · simp only [generateNarration, if_neg hv1, if_neg hv2, if_neg hrlp,
        if_pos hout] at hres
      simp at hres
    cases hcg : cacheGet cache (cacheKey req.variant_id req.voice_style) now with
    | some data =>
        simp only [generateNarration, if_neg hv1, if_neg hv2, if_neg hrlp,
          if_neg hout, hcg] at hres
        have heq := Except.ok.inj hres
        rw [← heq] at hcached
        simp at hcached
    | none =>
        cases hcr : (callTtsApi outcome now).result with
        | ok audio =>
            simp only [generateNarration, if_neg hv1, if_neg hv2, if_neg hrlp,
              if_neg hout, hcg, hcr]
            exact ⟨by trivial, by trivial⟩
        | error e =>
            cases e with
            | rateLimit secs =>
                simp only [generateNarration, if_neg hv1, if_neg hv2,
                  if_neg hrlp, if_neg hout, hcg, hcr] at hres
                simp at hres
            | provider m =>
                by_cases hth : 5 ≤ (if h.api_healthy = false then
                      { h with api_healthy := true, consecutive_failures := 0 }
                    else h).consecutive_failures + 1
                · simp only [generateNarration, if_neg hv1, if_neg hv2,
                    if_neg hrlp, if_neg hout, hcg, hcr, if_pos hth] at hres
                  simp at hres
                · simp only [generateNarration, if_neg hv1, if_neg hv2,
                    if_neg hrlp, if_neg hout, hcg, hcr, if_neg hth] at hres
                  simp at hres
  · -- (b) rate limits never increment the counter nor set the flag
    intro h cache req now freshId outcome k hres
    by_cases hv1 : req.voice_style ∉ configuredStyles
    · simp only [generateNarration, if_pos hv1] at hres
      simp at hres
    by_cases hv2 : ¬(1 ≤ req.intensity_level ∧ req.intensity_level ≤ 5)
    · simp only [generateNarration, if_neg hv1, if_pos hv2] at hres
      simp at hres
    by_cases hrlp : rlPending h now = true
    · simp only [generateNarration, if_neg hv1, if_neg hv2, if_pos hrlp]
      exact ⟨le_refl _, fun hh => hh⟩
    by_cases hout : h.api_healthy = false ∧ now - h.last_outage_check < 300
    · simp only [generateNarration, if_neg hv1, if_neg hv2, if_neg hrlp,
        if_pos hout] at hres
      simp at hres
    cases hcg : cacheGet cache (cacheKey req.variant_id req.voice_style) now with
    | some data =>
        simp only [generateNarration, if_neg hv1, if_neg hv2, if_neg hrlp,
          if_neg hout, hcg] at hres
        simp at hres
    | none =>
        cases hcr : (callTtsApi outcome now).result with
        | ok audio =>
            simp only [generateNarration, if_neg hv1, if_neg hv2, if_neg hrlp,
              if_neg hout, hcg, hcr] at hres
            simp at hres
        | error e =>
            cases e with
            | rateLimit secs =>
                simp only [generateNarration, if_neg hv1, if_neg hv2,
                  if_neg hrlp, if_neg hout, hcg, hcr]
                constructor
                · by_cases hh : h.api_healthy = false
                  · simp [hh]
                  · simp [hh]
                · intro _
                  exact h1_healthy h
            | provider m =>
                by_cases hth : 5 ≤ (if h.api_healthy = false then
                      { h with api_healthy := true, consecutive_failures := 0 }
                    else h).consecutive_failures + 1
                · simp only [generateNarration, if_neg hv1, if_neg hv2,
                    if_neg hrlp, if_neg hout, hcg, hcr, if_pos hth] at hres
                  simp at hres
                · simp only [generateNarration, if_neg hv1, if_neg hv2,
                    if_neg hrlp, if_neg hout, hcg, hcr, if_neg hth] at hres
                  simp at hres
  · -- (c) exhausted retries increment the counter; the 5th failure opens
    -- the breaker and already fails with OutageError
    intro h cache req now freshId outcome msg hhealthy hstyle hint hnorl hmiss hexh
    have hv1 : ¬(req.voice_style ∉ configuredStyles) := not_not_intro hstyle
    have hv2 : ¬¬(1 ≤ req.intensity_level ∧ req.intensity_level ≤ 5) :=
      not_not_intro hint
    have hrl2 : ¬(rlPending h now = true) := by simp [hnorl]
    have hout : ¬(h.api_healthy = false ∧ now - h.last_outage_check < 300) := by
      intro hand
      rw [hhealthy] at hand
      cases hand.1
    have hh1eq : (if h.api_healthy = false then
        { h with api_healthy := true, consecutive_failures := 0 }
      else h) = h := by
      rw [hhealthy]
      simp
    simp only [generateNarration, if_neg hv1, if_neg hv2, if_neg hrl2,
      if_neg hout, hmiss, hexh, hh1eq]
    refine ⟨?_, ?_, ?_⟩
    · by_cases hth : 5 ≤ h.consecutive_failures + 1
      · simp [hth]
      · simp [hth]
    · intro h5
      simp [h5]
    · intro h5
      have hth : ¬(5 ≤ h.consecutive_failures + 1) := by omega
      simp [hth, hhealthy]
  · -- (d) the open breaker fails fast until the cooldown elapses
    intro s hreach hunh req now freshId outcome hle hlt hstyle hint
    have hinv := svcReach_inv hreach
    have hnorl : rlPending s.health now = false := by
      unfold rlPending
      cases hrt : s.health.rate_limit_reset_time with
      | none => rfl
      | some rt =>
          have h1 := hinv.rlBound hunh rt hrt
          have h2 := hinv.lastLeClock
          simp only [decide_eq_false_iff_not]
          omega
    have hv1 : ¬(req.voice_style ∉ configuredStyles) := not_not_intro hstyle
    have hv2 : ¬¬(1 ≤ req.intensity_level ∧ req.intensity_level ≤ 5) :=
      not_not_intro hint
    have hrl2 : ¬(rlPending s.health now = true) := by simp [hnorl]
    simp only [generateNarration, if_neg hv1, if_neg hv2, if_neg hrl2,
      if_pos (And.intro hunh hlt)]
    exact ⟨by trivial, by trivial⟩

/-- Provider behaviour succeeding on the first attempt with 3 bytes. -/
def wOk : Nat → AttemptOutcome := fun _ => .success [1, 2, 3]

/-- Service trace for the C5 witness: five calls that all exhaust their
retries (times 1..5); the fifth opens the outage breaker. -/
def wSvc0 : SvcState := svcInit 0 86400

def wSvc1 : SvcState := svcApply wSvc0 wReq 1 "f1" wFail

def wSvc2 : SvcState := svcApply wSvc1 wReq 2 "f2" wFail

def wSvc3 : SvcState := svcApply wSvc2 wReq 3 "f3" wFail

def wSvc4 : SvcState := svcApply wSvc3 wReq 4 "f4" wFail

def wSvc5 : SvcState := svcApply wSvc4 wReq 5 "f5" wFail

theorem wSvc5_reach : SvcReach wSvc5 :=
  SvcReach.step
    (SvcReach.step
      (SvcReach.step
        (SvcReach.step
          (SvcReach.step (SvcReach.init 0 86400)
            (SvcStep.call wSvc0 wReq 1 "f1" wFail (by decide)))
          (SvcStep.call wSvc1 wReq 2 "f2" wFail (by decide)))
        (SvcStep.call wSvc2 wReq 3 "f3" wFail (by decide)))
      (SvcStep.call wSvc3 wReq 4 "f4" wFail (by decide)))
    (SvcStep.call wSvc4 wReq 5 "f5" wFail (by decide))

theorem c5_witness :
    ((generateNarration wHealth wEmptyCache wReq 10 "fid" wOk).result =
        .ok { narration_id := "fid",
              audio_url := "/api/narration/audio/" ++
                cacheKey "v1" .ghostly_whisper,
              duration := (3 : ℚ) / (16 * 1024), file_size := 3,
              cached := false } ∧
      (generateNarration wHealth wEmptyCache wReq 10 "fid" wOk).health.consecutive_failures = 0 ∧
      (generateNarration wHealth wEmptyCache wReq 10 "fid" wOk).health.api_healthy = true) ∧
    ((generateNarration { wHealth with rate_limit_reset_time := some 50 }
        wEmptyCache wReq 10 "fid" wOk).result = .error (.rateLimit 40) ∧
      (generateNarration { wHealth with rate_limit_reset_time := some 50 }
        wEmptyCache wReq 10 "fid" wOk).health.consecutive_failures ≤
        ({ wHealth with rate_limit_reset_time := some 50 } :
          HealthState).consecutive_failures) ∧
    ((callTtsApi wFail 10).result = .error (.provider "boom") ∧
      (generateNarration wHealth wEmptyCache wReq 10 "fid" wFail).health.consecutive_failures =
        wHealth.consecutive_failures + 1 ∧
      (generateNarration wHealth wEmptyCache wReq 10 "fid" wFail).result =
        .error (.provider "boom")) ∧
    (wSvc5.health.api_healthy = false ∧
      100 - wSvc5.health.last_outage_check < 300 ∧
      (generateNarration wSvc5.health wSvc5.cache wReq 100 "fid" wFail).result =
        .error .outage ∧
      (generateNarration wSvc5.health wSvc5.cache wReq 100 "fid" wFail).providerAttempts = 0) := by
  have hc5 := c5_failure_counter_and_breaker
  refine ⟨?_, ?_, ?_, ?_⟩
  · have hres : (generateNarration wHealth wEmptyCache wReq 10 "fid" wOk).result =
        .ok { narration_id := "fid",
              audio_url := "/api/narration/audio/" ++
                cacheKey "v1" .ghostly_whisper,
              duration := (3 : ℚ) / (16 * 1024), file_size := 3,
              cached := false } := rfl
    have hconc := hc5.1 wHealth wEmptyCache wReq 10 "fid" wOk _ hres rfl
    exact ⟨hres, hconc.1, hconc.2⟩
  · have hres : (generateNarration { wHealth with rate_limit_reset_time := some 50 }
        wEmptyCache wReq 10 "fid" wOk).result = .error (.rateLimit 40) := rfl
    have hconc := hc5.2.1 { wHealth with rate_limit_reset_time := some 50 }
      wEmptyCache wReq 10 "fid" wOk 40 hres
    exact ⟨hres, hconc.1⟩
  · have hexh : (callTtsApi wFail 10).result = .error (.provider "boom") := rfl
    have hconc := hc5.2.2.1 wHealth wEmptyCache wReq 10 "fid" wFail "boom"
      (by decide) (by decide) (by decide) (by decide) (by decide) hexh
    exact ⟨hexh, hconc.1, (hconc.2.2 (by decide)).1⟩
  · have hunh : wSvc5.health.api_healthy = false := by decide
    have hlt : 100 - wSvc5.health.last_outage_check < 300 := by decide
    have hconc := hc5.2.2.2 wSvc5 wSvc5_reach hunh wReq 100 "fid" wFail
      (by decide) hlt (by decide) (by decide)
    exact ⟨hunh, hlt, hconc.1, hconc.2⟩

/-! ## The cleanup sweeper (cleanup.py, NarrationCleanupService) -/

/-- Source: `abandoned_request_timeout_hours = 1` — one hour, in seconds. -/
def defaultAbandonedTimeout : Nat := 3600

/-- Source: `run_cleanup()` at time `now`: first `_cleanup_expired_cache` (delegating
to the cache's expiry sweep), then `_cleanup_abandoned_requests`, which scans
`request_status`, collects every id still in `queued`/`generating` whose age
`now - created_at` strictly exceeds the abandoned timeout, and calls
`cancel_request` on each collected id. -/
def runCleanup (cache : AudioCache) (qm : QMState) (now timeout : Nat) :
    AudioCache × QMState :=
  let cache2 := cacheCleanupExpired cache now
  let abandoned := (List.range qm.statuses.length).filter (fun i =>
    match qm.statuses[i]? with
    | some st => (st.status == Status.queued || st.status == Status.generating)
        && decide (timeout < now - st.created_at)
    | none => false)
  (cache2, abandoned.foldl (fun s i => cancelReq s i now) qm)

theorem cancelReq_statuses_ne (s : QMState) (i t j : Nat) (hji : j ≠ i) :
    (cancelReq s i t).statuses[j]? = s.statuses[j]? := by
  unfold cancelReq
  cases s.statuses[i]? with
  | none => rfl
  | some st =>
      by_cases hterm : st.status.isTerminal = true
      · simp [hterm]
      · simp only [hterm, Bool.false_eq_true, if_false]
        exact updAt_get_ne _ _ _ _ hji

theorem cancelReq_terminal_noop (s : QMState) (i t : Nat) {st : StatusInfo}
    (hst : s.statuses[i]? = some st) (hterm : st.status.isTerminal = true) :
    cancelReq s i t = s := by
  unfold cancelReq
  rw [hst]
  simp [hterm]

theorem cancelReq_nonterminal_get (s : QMState) (i t : Nat) {st : StatusInfo}
    (hst : s.statuses[i]? = some st) (hterm : st.status.isTerminal = false) :
    (cancelReq s i t).statuses[i]? =
      some { st with status := .cancelled, completed_at := some t } := by
  unfold cancelReq
  rw [hst]
  simp only [hterm, Bool.false_eq_true, if_false]
  exact updAt_get_self _ hst

theorem foldl_cancel_not_mem (L : List Nat) (now j : Nat) :
    ∀ s : QMState, j ∉ L →
      (L.foldl (fun s i => cancelReq s i now) s).statuses[j]? =
        s.statuses[j]? := by
  induction L with
  | nil =>
      intro s _
      rfl
  | cons a t ih =>
      intro s hj
      have hja : j ≠ a := fun hab => hj (hab ▸ List.mem_cons_self a t)
      have hjt : j ∉ t := fun hab => hj (List.mem_cons_of_mem a hab)
      rw [List.foldl_cons, ih (cancelReq s a now) hjt]
      exact cancelReq_statuses_ne s a now j hja

theorem foldl_cancel_terminal (L : List Nat) (now j : Nat) {st : StatusInfo}
    (hterm : st.status.isTerminal = true) :
    ∀ s : QMState, s.statuses[j]? = some st →
      (L.foldl (fun s i => cancelReq s i now) s).statuses[j]? = some st := by
  induction L with
  | nil =>
      intro s hst
      exact hst
  | cons a t ih =>
      intro s hst
      rw [List.foldl_cons]
      refine ih (cancelReq s a now) ?_
      by_cases hja : j = a
      · rw [← hja, cancelReq_terminal_noop s j now hst hterm]
        exact hst
      · rw [cancelReq_statuses_ne s a now j hja]
        exact hst

theorem foldl_cancel_mem (L : List Nat) (now j : Nat) {st : StatusInfo}
    (hterm : st.status.isTerminal = false) :
    ∀ s : QMState, j ∈ L → L.Nodup → s.statuses[j]? = some st →
      (L.foldl (fun s i => cancelReq s i now) s).statuses[j]? =
        some { st with status := .cancelled, completed_at := some now } := by
  induction L with
  | nil =>
      intro s hmem _ _
      cases hmem
  | cons a t ih =>
      intro s hmem hnd hst
      rw [List.foldl_cons]
      rcases List.mem_cons.mp hmem with rfl | hjt
      · have hjt : j ∉ t := (List.nodup_cons.mp hnd).1
        rw [foldl_cancel_not_mem t now j (cancelReq s j now) hjt]
        exact cancelReq_nonterminal_get s j now hst hterm
      · have hja : j ≠ a := by
          intro hab
          exact (List.nodup_cons.mp hnd).1 (hab ▸ hjt)
        refine ih (cancelReq s a now) hjt (List.nodup_cons.mp hnd).2 ?_
        rw [cancelReq_statuses_ne s a now j hja]
        exact hst

/-! ## Claim C8 -/

/-- C8: `run_cleanup` performs the expired-cache sweep (its cache component
equals `cleanupExpired` of the input cache) and then cancels, via the queue
manager's `cancel_request`, exactly the requests still in a non-terminal
state (`queued` or `generating`) whose age since creation strictly exceeds
the abandoned-request timeout (default 1 hour = `defaultAbandonedTimeout`
seconds): such requests end up `cancelled` with completion time `now`;
requests already terminal are never changed by the sweeper; and requests not
older than the timeout keep their records untouched.  In particular a
request sitting in `generating` longer than the timeout is cancelled by the
next `run_cleanup`. -/
theorem c8_cleanup_abandons_and_sweeps (cache : AudioCache) (qm : QMState)
    (now timeout : Nat) :
    (runCleanup cache qm now timeout).1 = cacheCleanupExpired cache now ∧
    (∀ (i : Nat) (st : StatusInfo), qm.statuses[i]? = some st →
      st.status.isTerminal = true →
      (runCleanup cache qm now timeout).2.statuses[i]? = some st) ∧
    (∀ (i : Nat) (st : StatusInfo), qm.statuses[i]? = some st →
      (st.status = .queued ∨ st.status = .generating) →
      timeout < now - st.created_at →
      (runCleanup cache qm now timeout).2.statuses[i]? =
        some { st with status := .cancelled, completed_at := some now }) ∧
    (∀ (i : Nat) (st : StatusInfo), qm.statuses[i]? = some st →
      ¬(timeout < now - st.created_at) →
      (runCleanup cache qm now timeout).2.statuses[i]? = some st) := by
  refine ⟨rfl, ?_, ?_, ?_⟩
  · intro i st hst hterm
    exact foldl_cancel_terminal _ now i hterm qm hst
  · intro i st hst hnt hage
    have hlt : i < qm.statuses.length := (List.getElem?_eq_some_iff.mp hst).1
    have hmem : i ∈ (List.range qm.statuses.length).filter (fun i =>
        match qm.statuses[i]? with
        | some st => (st.status == Status.queued ||
            st.status == Status.generating) &&
            decide (timeout < now - st.created_at)
        | none => false) := by
      rw [List.mem_filter]
      refine ⟨List.mem_range.mpr hlt, ?_⟩
      rw [hst]
      show ((st.status == Status.queued || st.status == Status.generating) &&
        decide (timeout < now - st.created_at)) = true
      rcases hnt with h1 | h1 <;> rw [h1] <;> simp [hage]
    have hterm : st.status.isTerminal = false := by
      rcases hnt with h1 | h1 <;> rw [h1] <;> rfl
    exact foldl_cancel_mem _ now i hterm qm hmem
      ((List.nodup_range _).filter _) hst
  · intro i st hst hage
    have hnmem : i ∉ (List.range qm.statuses.length).filter (fun i =>
        match qm.statuses[i]? with
        | some st => (st.status == Status.queued ||
            st.status == Status.generating) &&
            decide (timeout < now - st.created_at)
        | none => false) := by
      rw [List.mem_filter]
      intro habs
      have h2 := habs.2
      rw [hst] at h2
      show False
      have h3 : ((st.status == Status.queued ||
          st.status == Status.generating) &&
          decide (timeout < now - st.created_at)) = true := h2
      simp [hage] at h3
    have hres := foldl_cancel_not_mem _ now i qm hnmem
    rw [hst] at hres
    exact hres

theorem c8_witness :
    (wDispatched.statuses[0]? =
      some { status := .generating, progress := 0, created_at := 1,
             priority := .high, callback := some (), error := none,
             result := none, started_at := some 2, completed_at := none } ∧
      defaultAbandonedTimeout < 7200 - 1) ∧
    (runCleanup wEmptyCache wDispatched 7200 defaultAbandonedTimeout).1 =
      cacheCleanupExpired wEmptyCache 7200 ∧
    (runCleanup wEmptyCache wDispatched 7200 defaultAbandonedTimeout).2.statuses[0]? =
      some { status := .cancelled, progress := 0, created_at := 1,
             priority := .high, callback := some (), error := none,
             result := none, started_at := some 2, completed_at := some 7200 } := by
  have hmain := c8_cleanup_abandons_and_sweeps wEmptyCache wDispatched 7200
    defaultAbandonedTimeout
  have hst : wDispatched.statuses[0]? =
      some { status := .generating, progress := 0, created_at := 1,
             priority := .high, callback := some (), error := none,
             result := none, started_at := some 2, completed_at := none } := by
    decide
  refine ⟨⟨hst, by decide⟩, hmain.1, ?_⟩
  exact hmain.2.2.1 0 _ hst (Or.inr rfl) (by decide)

end NewsNecromancer
